import Mathlib

/-!
# Verification of the realtime dispatcher of `collaborative-component-customizer`

This file is a shallow embedding of `apps/api/src/realtime/dispatcher.ts`
(class `RealtimeDispatcher`) together with proofs about it.

Modelling conventions:

* JavaScript strings are modelled as `List Char` (the sequence of characters),
  written via `String.toList` in concrete scenarios.  String concatenation is
  `++`, `String.prototype.startsWith` is `startsWithList`, and
  `String.prototype.split(":")` is `splitOnColon`.
* A JavaScript `Map` is modelled as an insertion-ordered association list
  (`List (κ × υ)`); `Map.get` is `mapGet`, `Map.set` is `mapSet` (update in
  place when the key is present, append otherwise, exactly like `Map.set`),
  `Map.delete` is `mapDel`.  Iteration over the model list matches `Map`
  iteration order (insertion order).
* A JavaScript `Set` is modelled as a duplicate-free insertion-ordered list;
  `Set.add` is `setAdd`.
* A connection's `send` callback is modelled by recording the delivery in an
  output list of `(receiver connectionId, message)` pairs, in send order.
* The optional `logEvent` dependency is diagnostic only and never affects
  control flow or dispatcher state; it is omitted from the model.
* The constant `protocolVersion` field carried by every message (always
  `PROTOCOL_VERSION = 1`) and the human-readable `message`/`issues` strings of
  error payloads are omitted from the message model; the discriminating
  `type`/`code`/payload fields are kept.
-/

/-- `p.startsWithList s` models JavaScript `s.startsWith(p)` for the modelled
strings (`p` is the candidate prefix pattern). -/
def startsWithList : List Char → List Char → Bool
  | [], _ => true
  | _ :: _, [] => false
  | p :: ps, c :: cs => p == c && startsWithList ps cs

/-- Models JavaScript `s.split(":")`: cuts the string at every colon, keeping
empty pieces; the result always has (number of colons + 1) pieces. -/
def splitOnColon : List Char → List (List Char)
  | [] => [[]]
  | c :: rest =>
    match splitOnColon rest with
    | [] => [[c]]
    | h :: t => if c = ':' then [] :: h :: t else (c :: h) :: t

/-- `Map.get` on the association-list model of a JavaScript `Map`. -/
def mapGet {υ : Type} (k : List Char) : List (List Char × υ) → Option υ
  | [] => none
  | (k2, v) :: rest => if k2 = k then some v else mapGet k rest

/-- `Map.set` on the association-list model: replaces the value in place when
the key is present, appends the new entry otherwise (JavaScript `Map.set`
keeps the original insertion position of an existing key). -/
def mapSet {υ : Type} (k : List Char) (v : υ) : List (List Char × υ) → List (List Char × υ)
  | [] => [(k, v)]
  | (k2, v2) :: rest => if k2 = k then (k2, v) :: rest else (k2, v2) :: mapSet k v rest

/-- `Map.delete` on the association-list model. -/
def mapDel {υ : Type} (k : List Char) : List (List Char × υ) → List (List Char × υ)
  | [] => []
  | (k2, v2) :: rest => if k2 = k then rest else (k2, v2) :: mapDel k rest

/-- `Set.add` on the insertion-ordered-list model of a JavaScript `Set`. -/
def setAdd (x : List Char) (s : List (List Char)) : List (List Char) :=
  if x ∈ s then s else s ++ [x]

/-- `LockTarget` from `packages/shared/src/index.ts`: an atomic target
(`{target:"atomic", componentId}`) or a page target
(`{target:"page", pageId, instanceId, nodeId}`). -/
inductive LockTarget where
  | atomic (componentId : List Char)
  | page (pageId instanceId nodeId : List Char)
  deriving DecidableEq, Repr

/-- `AtomicDoc` from the shared package. -/
structure AtomicDoc where
  componentId : List Char
  className : List Char
  deriving DecidableEq, Repr

/-- `PageInstanceOverride` from the shared package. -/
structure PageInstanceOverride where
  instanceId : List Char
  nodeId : List Char
  className : List Char
  deriving DecidableEq, Repr

/-- `PageDoc` from the shared package. -/
structure PageDoc where
  pageId : List Char
  overrides : List PageInstanceOverride
  deriving DecidableEq, Repr

/-- `CurrentRoomDocResponse` from `apps/api/src/db/roomReadRepository.ts` as
consumed by the dispatcher. -/
structure CurrentRoomDocResponse where
  roomId : List Char
  currentVersionId : List Char
  atomicDoc : AtomicDoc
  pageDoc : PageDoc
  deriving DecidableEq, Repr

/-- `PatchOp` from the shared package (payload forwarded verbatim by the
dispatcher). -/
inductive PatchOp where
  | setAtomicClassName (componentId className : List Char)
  | setPageNodeClassName (pageId instanceId nodeId className : List Char)
  | unsetPageNodeClassName (pageId instanceId nodeId : List Char)
  deriving DecidableEq, Repr

/-- `RealtimeDispatcher.getLockTargetKey` (dispatching to
`getAtomicTargetKey` / `getPageTargetKey`):
`atomic:<componentId>` or `page:<pageId>:<instanceId>:<nodeId>`. -/
def getLockTargetKey : LockTarget → List Char
  | .atomic componentId => "atomic:".toList ++ componentId
  | .page pageId instanceId nodeId =>
      "page:".toList ++ pageId ++ ":".toList ++ instanceId ++ ":".toList ++ nodeId

/-- `RealtimeDispatcher.parseLockTargetKey`: decodes a canonical lock target
key back into a `LockTarget`, returning `none` for keys it cannot decode
(unknown head, empty componentId, page bodies that do not split into exactly
three non-empty pieces). -/
def parseLockTargetKey (lockTargetKey : List Char) : Option LockTarget :=
  if startsWithList "atomic:".toList lockTargetKey then
    let componentId := lockTargetKey.drop "atomic:".toList.length
    if componentId.length < 1 then none
    else some (.atomic componentId)
  else if startsWithList "page:".toList lockTargetKey then
    match splitOnColon (lockTargetKey.drop "page:".toList.length) with
    | [pageId, instanceId, nodeId] =>
        if pageId.length < 1 ∨ instanceId.length < 1 ∨ nodeId.length < 1 then none
        else some (.page pageId instanceId nodeId)
    | _ => none
  else none

/-- `RealtimeDispatcher.isLockTargetValidForRoom`. -/
def isLockTargetValidForRoom (currentRoomDoc : CurrentRoomDocResponse) :
    LockTarget → Bool
  | .atomic componentId => componentId = currentRoomDoc.atomicDoc.componentId
  | .page pageId _ _ => pageId = currentRoomDoc.pageDoc.pageId

/-- `ConnectionState` from the dispatcher: the registered connection record
(the `send` callback is modelled by the delivery log, see module comment). -/
structure ConnectionState where
  connectionId : List Char
  clientId : Option (List Char)
  subscribedRooms : List (List Char)
  deriving DecidableEq, Repr

/-- `LockOwnership` from the dispatcher. -/
structure LockOwnership where
  ownerConnectionId : List Char
  ownerClientId : List Char
  deriving DecidableEq, Repr

/-- The three private `Map` fields of `RealtimeDispatcher`:
`connectionsById`, `roomConnections`, `roomLocks`. -/
structure DispatcherState where
  connectionsById : List (List Char × ConnectionState)
  roomConnections : List (List Char × List (List Char))
  roomLocks : List (List Char × List (List Char × LockOwnership))
  deriving DecidableEq, Repr

/-- A freshly constructed dispatcher: all three maps empty. -/
def initialDispatcherState : DispatcherState := ⟨[], [], []⟩

/-- `ClientMessage` from the shared package as routed by `dispatch`; the
`other` constructor stands for the schema-valid kinds the dispatcher does not
handle (`save`, `listVersions`, `getVersion`, `reapplyVersion`), carrying the
`type` string used in the error reply. -/
inductive ClientMsg where
  | join (roomId clientId : List Char)
  | subscribe (roomId : List Char)
  | patchDraft (roomId draftId baseVersionId : List Char) (ops : List PatchOp)
  | lockAcquire (roomId clientId : List Char) (lockTarget : LockTarget)
  | lockReleased (roomId clientId : List Char) (lockTarget : LockTarget)
  | other (type : List Char)
  deriving DecidableEq, Repr

/-- `ServerMessage` from the shared package, restricted to the kinds the
dispatcher actually produces, plus the typed `error` payload (represented by
its `code`; the human-readable text is omitted, see module comment). -/
inductive ServerMsg where
  | errorMsg (code : List Char)
  | doc (roomId versionId : List Char) (atomicDoc : AtomicDoc) (pageDoc : PageDoc)
  | patchDraftB (roomId draftId baseVersionId authorClientId : List Char) (ops : List PatchOp)
  | lockGranted (roomId clientId : List Char) (lockTarget : LockTarget)
  | lockDenied (roomId clientId : List Char) (lockTarget : LockTarget) (reason : List Char)
  | lockReleased (roomId clientId : List Char) (lockTarget : LockTarget)
  | presence (roomId : List Char) (clientIds : List (List Char))
  deriving DecidableEq, Repr

/-- One recorded delivery: `(receiver connectionId, message)`. -/
abbrev Sent := List Char × ServerMsg

/-- The injected `getCurrentRoomDoc` dependency (`null` modelled as `none`). -/
abbrev GetDoc := List Char → Option CurrentRoomDocResponse

/-- `RealtimeDispatcher.registerConnection`: inserts a connection record with
no clientId and no room subscriptions. -/
def registerConnection (s : DispatcherState) (connectionId : List Char) : DispatcherState :=
  { s with connectionsById :=
      mapSet connectionId ⟨connectionId, none, []⟩ s.connectionsById }

/-- `RealtimeDispatcher.subscribeConnectionToRoom`: adds the room to the
connection's subscription set (when the connection is registered) and the
connection id to the room's membership set, creating the room entry if
needed. -/
def subscribeConnectionToRoom (s : DispatcherState) (connectionId roomId : List Char) :
    DispatcherState :=
  let s1 :=
    match mapGet connectionId s.connectionsById with
    | none => s
    | some cs =>
        let cs2 := { cs with subscribedRooms := setAdd roomId cs.subscribedRooms }
        { s with connectionsById := mapSet connectionId cs2 s.connectionsById }
  match mapGet roomId s1.roomConnections with
  | some ids => { s1 with roomConnections := mapSet roomId (setAdd connectionId ids) s1.roomConnections }
  | none => { s1 with roomConnections := mapSet roomId [connectionId] s1.roomConnections }

/-- `RealtimeDispatcher.sendCurrentDoc`: sends the requesting connection the
current `doc` snapshot, or an `error ROOM_NOT_FOUND` when the injected
accessor returns `null`. -/
def sendCurrentDoc (getDoc : GetDoc) (connectionId roomId : List Char) : List Sent :=
  match getDoc roomId with
  | none => [(connectionId, .errorMsg "ROOM_NOT_FOUND".toList)]
  | some d => [(connectionId, .doc roomId d.currentVersionId d.atomicDoc d.pageDoc)]

/-- `RealtimeDispatcher.broadcastToRoom`: sends `message` to every currently
registered connection in the room's membership set, in membership iteration
order; no-op when the room has no membership entry. -/
def broadcastToRoom (s : DispatcherState) (roomId : List Char) (message : ServerMsg) :
    List Sent :=
  match mapGet roomId s.roomConnections with
  | none => []
  | some ids =>
      ids.filterMap fun cid =>
        match mapGet cid s.connectionsById with
        | none => none
        | some _ => some (cid, message)

/-- `RealtimeDispatcher.broadcastPatchDraft`: like `broadcastToRoom` but
skipping the source connection. -/
def broadcastPatchDraft (s : DispatcherState) (sourceConnectionId roomId : List Char)
    (message : ServerMsg) : List Sent :=
  match mapGet roomId s.roomConnections with
  | none => []
  | some ids =>
      ids.filterMap fun cid =>
        if cid = sourceConnectionId then none
        else
          match mapGet cid s.connectionsById with
          | none => none
          | some _ => some (cid, message)

/-- Models the comparator `(l, r) => l.localeCompare(r)` used by
`broadcastPresence`, as a strict before-ordering (`localeCompare < 0`).
`String.prototype.localeCompare` collates according to the host's locale data
(ECMA-402, implementation-defined); it is modelled here as plain code-point
comparison, which is what hosts without collation data fall back to.  No
claim about the exact collation is proved from this model. -/
def localeCompareLt (l r : List Char) : Bool := decide (l < r)

/-- Stable insertion used by `sortStable`: places `x` before the first
element strictly greater than it, hence after every element already placed
that compares equal. -/
def insertStable (lt : List Char → List Char → Bool) (x : List Char) :
    List (List Char) → List (List Char)
  | [] => [x]
  | y :: ys => if lt x y then x :: y :: ys else y :: insertStable lt x ys

/-- Models `Array.prototype.sort(comparator)`: a stable comparator sort
(ES2019 requires sort stability, and for a consistent comparator the stable
ascending reordering is unique). -/
def sortStable (lt : List Char → List Char → Bool) (xs : List (List Char)) :
    List (List Char) :=
  xs.foldl (fun acc x => insertStable lt x acc) []

/-- `RealtimeDispatcher.broadcastPresence`: maps the room's membership to
clientIds (dropping unset ones), sorts with `localeCompare`, deduplicates via
`new Set` (keeping the first occurrence), and broadcasts the `presence`
snapshot to the whole room. -/
def broadcastPresence (s : DispatcherState) (roomId : List Char) : List Sent :=
  match mapGet roomId s.roomConnections with
  | none => []
  | some ids =>
      let sortedClientIds :=
        sortStable localeCompareLt
          (ids.filterMap fun cid =>
            match mapGet cid s.connectionsById with
            | none => none
            | some cs => cs.clientId)
      let uniqueSortedClientIds := sortedClientIds.foldl (fun acc c => setAdd c acc) []
      broadcastToRoom s roomId (.presence roomId uniqueSortedClientIds)

/-- `RealtimeDispatcher.getOrCreateRoomLockMap` folded into its only caller:
the room's lock map, or the empty map when absent (an absent map is written
back on the grant path, matching the source's eager creation). -/
def roomLockMapOf (s : DispatcherState) (roomId : List Char) :
    List (List Char × LockOwnership) :=
  (mapGet roomId s.roomLocks).getD []

/-- `RealtimeDispatcher.handleLockAcquire` (the connection's clientId backfill
performed by the `lockAcquire` arm of `dispatch` happens before this runs,
see `dispatch`). -/
def handleLockAcquire (getDoc : GetDoc) (s : DispatcherState)
    (connectionId roomId clientId : List Char) (lockTarget : LockTarget) :
    DispatcherState × List Sent :=
  match getDoc roomId with
  | none => (s, [(connectionId, .errorMsg "ROOM_NOT_FOUND".toList)])
  | some currentRoomDoc =>
    if ¬ isLockTargetValidForRoom currentRoomDoc lockTarget then
      (s, [(connectionId, .lockDenied roomId clientId lockTarget "invalidTarget".toList)])
    else
      let lockTargetKey := getLockTargetKey lockTarget
      let roomLockMap := roomLockMapOf s roomId
      match mapGet lockTargetKey roomLockMap with
      | some existingLock =>
          if existingLock.ownerConnectionId ≠ connectionId ∨
              existingLock.ownerClientId ≠ clientId then
            (s, [(connectionId, .lockDenied roomId clientId lockTarget "alreadyLocked".toList)])
          else
            let locks2 := mapSet roomId (mapSet lockTargetKey ⟨connectionId, clientId⟩ roomLockMap) s.roomLocks
            ({ s with roomLocks := locks2 },
             [(connectionId, .lockGranted roomId clientId lockTarget)])
      | none =>
          let locks2 := mapSet roomId (mapSet lockTargetKey ⟨connectionId, clientId⟩ roomLockMap) s.roomLocks
          ({ s with roomLocks := locks2 },
           [(connectionId, .lockGranted roomId clientId lockTarget)])

/-- `RealtimeDispatcher.handleLockReleaseRequest`: silent no-op unless the
requesting `(connectionId, clientId)` exactly matches the recorded owner; on
match, deletes the entry (pruning an emptied room map) and broadcasts
`lockReleased` to the whole room. -/
def handleLockReleaseRequest (s : DispatcherState)
    (connectionId roomId clientId : List Char) (lockTarget : LockTarget) :
    DispatcherState × List Sent :=
  match mapGet roomId s.roomLocks with
  | none => (s, [])
  | some roomLockMap =>
    let lockTargetKey := getLockTargetKey lockTarget
    match mapGet lockTargetKey roomLockMap with
    | none => (s, [])
    | some existingLock =>
      if existingLock.ownerConnectionId ≠ connectionId ∨
          existingLock.ownerClientId ≠ clientId then
        (s, [])
      else
        let roomLockMap2 := mapDel lockTargetKey roomLockMap
        let newRoomLocks :=
          if roomLockMap2.length < 1 then mapDel roomId s.roomLocks
          else mapSet roomId roomLockMap2 s.roomLocks
        ({ s with roomLocks := newRoomLocks },
         broadcastToRoom s roomId (.lockReleased roomId clientId lockTarget))

/-- The body of the inner loop of
`RealtimeDispatcher.releaseLocksForDisconnect`: skip entries of other owners
and entries whose key the parser cannot decode (`continue`); delete the rest
from the live map, collecting a `lockReleased` broadcast against the
pre-disconnect membership. -/
def releaseLockStep (s : DispatcherState) (disconnectingId roomId : List Char)
    (acc : List (List Char × LockOwnership) × List Sent)
    (entry : List Char × LockOwnership) :
    List (List Char × LockOwnership) × List Sent :=
  let (m, sent) := acc
  let (lockTargetKey, ownership) := entry
  if ownership.ownerConnectionId ≠ disconnectingId then (m, sent)
  else
    match parseLockTargetKey lockTargetKey with
    | none => (m, sent)
    | some lockTarget =>
        (mapDel lockTargetKey m,
         sent ++ broadcastToRoom s roomId
           (.lockReleased roomId ownership.ownerClientId lockTarget))

/-- One room's pass of `RealtimeDispatcher.releaseLocksForDisconnect`: folds
`releaseLockStep` over the snapshot of the room's lock entries, starting from
the live map and no messages. -/
def releaseLocksInRoom (s : DispatcherState) (disconnectingId roomId : List Char)
    (roomLockMap : List (List Char × LockOwnership)) :
    List (List Char × LockOwnership) × List Sent :=
  roomLockMap.foldl (releaseLockStep s disconnectingId roomId) (roomLockMap, [])

/-- `RealtimeDispatcher.releaseLocksForDisconnect`: applies
`releaseLocksInRoom` to every room of the lock registry in iteration order,
dropping room entries whose lock map was emptied. -/
def releaseLocksForDisconnect (s : DispatcherState) (disconnectingId : List Char) :
    DispatcherState × List Sent :=
  let results := s.roomLocks.map fun entry =>
    let (roomId, roomLockMap) := entry
    let (m2, sent) := releaseLocksInRoom s disconnectingId roomId roomLockMap
    (roomId, m2, sent)
  let newRoomLocks := (results.filter fun r => 1 ≤ r.2.1.length).map fun r => (r.1, r.2.1)
  let allSent := results.foldl (fun acc r => acc ++ r.2.2) []
  ({ s with roomLocks := newRoomLocks }, allSent)

/-- The membership-cleanup loop of `RealtimeDispatcher.disconnect`: deletes
the connection id from every room's membership set and prunes rooms whose set
became empty. -/
def removeConnectionFromRooms (rooms : List (List Char × List (List Char)))
    (connectionId : List Char) : List (List Char × List (List Char)) :=
  (rooms.map fun entry => (entry.1, entry.2.filter fun cid => cid ≠ connectionId)).filter
    fun entry => 1 ≤ entry.2.length

/-- `RealtimeDispatcher.disconnect`: no-op for an unknown connection;
otherwise releases the connection's locks (broadcasting `lockReleased` to the
pre-disconnect memberships), removes the connection from every room's
membership set (pruning emptied rooms) and from the registry, then broadcasts
a fresh `presence` snapshot, against the reduced state, to every room the
connection was subscribed to. -/
def disconnect (s : DispatcherState) (connectionId : List Char) :
    DispatcherState × List Sent :=
  match mapGet connectionId s.connectionsById with
  | none => (s, [])
  | some connectionState =>
    let rl := releaseLocksForDisconnect s connectionId
    let s2 := { rl.1 with
      roomConnections := removeConnectionFromRooms rl.1.roomConnections connectionId,
      connectionsById := mapDel connectionId rl.1.connectionsById }
    let sentPresence :=
      connectionState.subscribedRooms.foldl
        (fun acc roomId => acc ++ broadcastPresence s2 roomId) []
    (s2, rl.2 ++ sentPresence)

/-- `RealtimeDispatcher.dispatch`: routes one inbound message from a
registered connection (no-op for an unknown connection), mirroring the
`switch` in the source: `join` unconditionally stores the message's clientId,
subscribes, sends the doc snapshot, then broadcasts presence; `subscribe`
subscribes and sends the doc snapshot; `patchDraft` fans the draft out to the
other room members; `lockAcquire` backfills an unset clientId and runs
`handleLockAcquire`; `lockReleased` runs `handleLockReleaseRequest`; any
other kind is answered with `error UNSUPPORTED_MESSAGE_TYPE`. -/
def dispatch (getDoc : GetDoc) (s : DispatcherState) (connectionId : List Char)
    (message : ClientMsg) : DispatcherState × List Sent :=
  match mapGet connectionId s.connectionsById with
  | none => (s, [])
  | some connectionState =>
    match message with
    | .join roomId clientId =>
        let cs2 := { connectionState with clientId := some clientId }
        let s1 := { s with connectionsById := mapSet connectionId cs2 s.connectionsById }
        let s2 := subscribeConnectionToRoom s1 connectionId roomId
        (s2, sendCurrentDoc getDoc connectionId roomId ++ broadcastPresence s2 roomId)
    | .subscribe roomId =>
        let s1 := subscribeConnectionToRoom s connectionId roomId
        (s1, sendCurrentDoc getDoc connectionId roomId)
    | .patchDraft roomId draftId baseVersionId ops =>
        let authorClientId := connectionState.clientId.getD connectionState.connectionId
        (s, broadcastPatchDraft s connectionId roomId
          (.patchDraftB roomId draftId baseVersionId authorClientId ops))
    | .lockAcquire roomId clientId lockTarget =>
        let cs2 :=
          if connectionState.clientId = none then
            { connectionState with clientId := some clientId }
          else connectionState
        let s1 := { s with connectionsById := mapSet connectionId cs2 s.connectionsById }
        handleLockAcquire getDoc s1 connectionId roomId clientId lockTarget
    | .lockReleased roomId clientId lockTarget =>
        handleLockReleaseRequest s connectionId roomId clientId lockTarget
    | .other _ =>
        (s, [(connectionId, .errorMsg "UNSUPPORTED_MESSAGE_TYPE".toList)])

/-! ## Properties of the canonical lock-target-key encoding -/

theorem startsWithList_append (p rest : List Char) :
    startsWithList p (p ++ rest) = true := by
  induction p with
  | nil => rfl
  | cons c cs ih => simp [startsWithList, ih]

theorem splitOnColon_ne_nil (s : List Char) : splitOnColon s ≠ [] := by
  cases s with
  | nil => simp [splitOnColon]
  | cons c rest =>
    simp only [splitOnColon]
    cases h : splitOnColon rest with
    | nil => simp
    | cons h t =>
      by_cases hc : c = ':' <;> simp [hc]

theorem splitOnColon_no_colon (p : List Char) (hp : ':' ∉ p) :
    splitOnColon p = [p] := by
  induction p with
  | nil => rfl
  | cons c cs ih =>
    have hc : c ≠ ':' := fun h => hp (h ▸ List.mem_cons_self c cs)
    have hcs : ':' ∉ cs := fun h => hp (List.mem_cons_of_mem c h)
    simp [splitOnColon, ih hcs, hc]

theorem splitOnColon_append_colon (p rest : List Char) (hp : ':' ∉ p) :
    splitOnColon (p ++ ':' :: rest) = p :: splitOnColon rest := by
  induction p with
  | nil =>
    simp only [List.nil_append, splitOnColon]
    cases h : splitOnColon rest with
    | nil => exact absurd h (splitOnColon_ne_nil rest)
    | cons a b => simp
  | cons c cs ih =>
    have hc : c ≠ ':' := fun h => hp (h ▸ List.mem_cons_self c cs)
    have hcs : ':' ∉ cs := fun h => hp (List.mem_cons_of_mem c h)
    rw [List.cons_append]
    simp only [splitOnColon, ih hcs]
    simp [hc]

/-- The canonical encoding and its parser agree on the lock targets whose ids
are non-empty and, for page targets, colon-free. -/
def goodLockTarget : LockTarget → Prop
  | .atomic componentId => componentId ≠ []
  | .page pageId instanceId nodeId =>
      pageId ≠ [] ∧ instanceId ≠ [] ∧ nodeId ≠ [] ∧
      ':' ∉ pageId ∧ ':' ∉ instanceId ∧ ':' ∉ nodeId

instance : DecidablePred goodLockTarget := by
  intro t
  cases t <;> simp only [goodLockTarget] <;> infer_instance

theorem parse_atomic_key (c : List Char) (hc : c ≠ []) :
    parseLockTargetKey (getLockTargetKey (.atomic c)) = some (.atomic c) := by
  have hlen : ¬ c.length < 1 := by
    cases c with
    | nil => exact absurd rfl hc
    | cons _ _ => simp
  have h1 : startsWithList "atomic:".toList ("atomic:".toList ++ c) = true :=
    startsWithList_append _ _
  have h2 : ("atomic:".toList ++ c).drop "atomic:".toList.length = c :=
    List.drop_left _ _
  show parseLockTargetKey ("atomic:".toList ++ c) = some (.atomic c)
  unfold parseLockTargetKey
  rw [if_pos h1, h2, if_neg hlen]

theorem parse_page_key (p i n : List Char) (hp : p ≠ []) (hi : i ≠ []) (hn : n ≠ [])
    (hpc : ':' ∉ p) (hic : ':' ∉ i) (hnc : ':' ∉ n) :
    parseLockTargetKey (getLockTargetKey (.page p i n)) = some (.page p i n) := by
  have hkey : getLockTargetKey (.page p i n) =
      "page:".toList ++ (p ++ ':' :: (i ++ ':' :: n)) := by
    simp [getLockTargetKey]
  have hsplit : splitOnColon (p ++ ':' :: (i ++ ':' :: n)) = [p, i, n] := by
    rw [splitOnColon_append_colon p _ hpc, splitOnColon_append_colon i _ hic,
      splitOnColon_no_colon n hnc]
  have hnotAtomic :
      startsWithList "atomic:".toList ("page:".toList ++ (p ++ ':' :: (i ++ ':' :: n))) = false :=
    rfl
  have hna : ¬ startsWithList "atomic:".toList
      ("page:".toList ++ (p ++ ':' :: (i ++ ':' :: n))) = true := by
    rw [hnotAtomic]
    exact Bool.false_ne_true
  have hpg : startsWithList "page:".toList
      ("page:".toList ++ (p ++ ':' :: (i ++ ':' :: n))) = true :=
    startsWithList_append _ _
  have hdrop : ("page:".toList ++ (p ++ ':' :: (i ++ ':' :: n))).drop
      "page:".toList.length = p ++ ':' :: (i ++ ':' :: n) :=
    List.drop_left _ _
  rw [hkey]
  unfold parseLockTargetKey
  rw [if_neg hna, if_pos hpg, hdrop, hsplit]
  simp [Nat.lt_one_iff, List.length_eq_zero, hp, hi, hn]

theorem atomic_page_keys_disjoint (c p i n : List Char) :
    getLockTargetKey (.atomic c) ≠ getLockTargetKey (.page p i n) := by
  intro h
  simp only [getLockTargetKey] at h
  have h2 := congrArg List.headI h
  simp [String.toList] at h2

/-- C2 counterexample: the canonical encoding is not injective and not
reversible on all lock targets with non-empty ids.  The two distinct page
targets `(p, a:b, c)` and `(p, a, b:c)` share the canonical key
`page:p:a:b:c`, and the key of the page target `(p, i, a:b)` does not decode
back to it (the parser returns `none`). -/
theorem C2_canonical_key_counterexample :
    getLockTargetKey (.page "p".toList "a:b".toList "c".toList) =
      getLockTargetKey (.page "p".toList "a".toList "b:c".toList) ∧
    LockTarget.page "p".toList "a:b".toList "c".toList ≠
      LockTarget.page "p".toList "a".toList "b:c".toList ∧
    parseLockTargetKey (getLockTargetKey (.page "p".toList "i".toList "a:b".toList)) ≠
      some (.page "p".toList "i".toList "a:b".toList) := by
  refine ⟨by decide, by decide, by decide⟩

/-- C2 (amended): the canonical lock-target-key encoding is reversible
(`parseLockTargetKey (getLockTargetKey T) = some T`) and injective on the
lock targets whose ids are non-empty and whose page-target ids contain no
colon (atomic componentIds may contain colons); an atomic key never equals a
page key, for arbitrary ids. -/
theorem C2_canonical_key_amended :
    (∀ t : LockTarget, goodLockTarget t →
      parseLockTargetKey (getLockTargetKey t) = some t) ∧
    (∀ t1 t2 : LockTarget, goodLockTarget t1 → goodLockTarget t2 →
      getLockTargetKey t1 = getLockTargetKey t2 → t1 = t2) ∧
    (∀ c p i n : List Char,
      getLockTargetKey (.atomic c) ≠ getLockTargetKey (.page p i n)) := by
  have hround : ∀ t : LockTarget, goodLockTarget t →
      parseLockTargetKey (getLockTargetKey t) = some t := by
    intro t ht
    cases t with
    | atomic c => exact parse_atomic_key c ht
    | page p i n =>
      obtain ⟨hp, hi, hn, hpc, hic, hnc⟩ := ht
      exact parse_page_key p i n hp hi hn hpc hic hnc
  refine ⟨hround, ?_, atomic_page_keys_disjoint⟩
  intro t1 t2 h1 h2 hk
  have := (hround t1 h1).symm.trans (hk ▸ hround t2 h2)
  exact Option.some_injective _ this

/-- Witness for C2 (amended) at concrete targets. -/
theorem C2_canonical_key_witness :
    parseLockTargetKey (getLockTargetKey (.atomic "component-hero".toList)) =
      some (.atomic "component-hero".toList) ∧
    parseLockTargetKey
        (getLockTargetKey (.page "page-home".toList "inst-1".toList "node-1".toList)) =
      some (.page "page-home".toList "inst-1".toList "node-1".toList) :=
  ⟨C2_canonical_key_amended.1 _ (by decide), C2_canonical_key_amended.1 _ (by decide)⟩

/-! ## Disconnect and the colon bug (C1) -/

/-- The fixture room document used by the concrete scenarios (mirrors the
test fixture: atomic componentId `component-hero`, page `page-home`). -/
def fixtureGetDoc : GetDoc := fun roomId =>
  some ⟨roomId, "version-003".toList,
    ⟨"component-hero".toList, "text-4xl".toList⟩,
    ⟨"page-home".toList, []⟩⟩

/-- A schema-valid page lock target whose nodeId contains a colon. -/
def c1Target : LockTarget := .page "page-home".toList "inst-1".toList "node:1".toList

/-- Scenario for C1: conn-a and conn-b join room-1, then conn-a acquires the
colon-carrying page target (which is valid for the room's doc and gets
granted). -/
def c1AfterAcquire : DispatcherState :=
  (dispatch fixtureGetDoc
    ((dispatch fixtureGetDoc
      ((dispatch fixtureGetDoc
        (registerConnection (registerConnection initialDispatcherState "conn-a".toList)
          "conn-b".toList)
        "conn-a".toList (.join "room-1".toList "client-a".toList)).1)
      "conn-b".toList (.join "room-1".toList "client-b".toList)).1)
    "conn-a".toList (.lockAcquire "room-1".toList "client-a".toList c1Target)).1

/-- Disconnecting the lock's owner in the C1 scenario. -/
def c1Disconnect : DispatcherState × List Sent :=
  disconnect c1AfterAcquire "conn-a".toList

/-- C1: evaluation at the failing input.  conn-a was granted the lock on the
page target whose canonical key `page:page-home:inst-1:node:1` the internal
parser cannot decode; after `disconnect(conn-a)` the ownership entry is still
in the lock registry and the only message broadcast is the presence update —
no `lockReleased` reaches conn-b, contradicting the claim (and the spec's
"releases every lock it owns across every room"). -/
theorem C1_disconnect_keeps_undecodable_lock :
    mapGet (getLockTargetKey c1Target) (roomLockMapOf c1AfterAcquire "room-1".toList) =
      some ⟨"conn-a".toList, "client-a".toList⟩ ∧
    mapGet (getLockTargetKey c1Target) (roomLockMapOf c1Disconnect.1 "room-1".toList) =
      some ⟨"conn-a".toList, "client-a".toList⟩ ∧
    c1Disconnect.2 =
      [("conn-b".toList, .presence "room-1".toList ["client-b".toList])] := by
  refine ⟨by decide, by decide, by decide⟩

/-! ## Association-list map lemmas -/

theorem mapGet_mapSet_self {υ : Type} (k : List Char) (v : υ) (m : List (List Char × υ)) :
    mapGet k (mapSet k v m) = some v := by
  induction m with
  | nil => simp [mapSet, mapGet]
  | cons e rest ih =>
    obtain ⟨k2, v2⟩ := e
    by_cases h : k2 = k <;> simp [mapSet, mapGet, h, ih]

theorem mapGet_mapSet_ne {υ : Type} (k k2 : List Char) (v : υ) (m : List (List Char × υ))
    (h : k2 ≠ k) : mapGet k2 (mapSet k v m) = mapGet k2 m := by
  have h1 : ¬ k = k2 := fun hh => h hh.symm
  induction m with
  | nil => simp [mapSet, mapGet, h1]
  | cons e rest ih =>
    obtain ⟨k3, v3⟩ := e
    by_cases h3 : k3 = k
    · subst h3
      simp [mapSet, mapGet, h1]
    · by_cases h4 : k3 = k2
      · subst h4
        simp [mapSet, mapGet, h3]
      · simp [mapSet, mapGet, h3, h4, ih]

theorem mapGet_mapDel_ne {υ : Type} (k k2 : List Char) (m : List (List Char × υ))
    (h : k2 ≠ k) : mapGet k2 (mapDel k m) = mapGet k2 m := by
  induction m with
  | nil => simp [mapDel, mapGet]
  | cons e rest ih =>
    obtain ⟨k3, v3⟩ := e
    by_cases h3 : k3 = k
    · subst h3
      have h1 : ¬ k3 = k2 := fun hh => h (hh.symm)
      simp [mapDel, mapGet, h1, ih]
    · by_cases h4 : k3 = k2
      · subst h4
        simp [mapDel, mapGet, h3]
      · simp [mapDel, mapGet, h3, h4, ih]

theorem mapGet_eq_none_of_not_mem {υ : Type} (k : List Char) (m : List (List Char × υ))
    (h : k ∉ m.map Prod.fst) : mapGet k m = none := by
  induction m with
  | nil => rfl
  | cons e rest ih =>
    obtain ⟨k2, v2⟩ := e
    simp only [List.map_cons, List.mem_cons, not_or] at h
    have h1 : ¬ k2 = k := fun hh => h.1 hh.symm
    simp [mapGet, h1, ih h.2]

theorem mapGet_mapDel_self {υ : Type} (k : List Char) (m : List (List Char × υ))
    (hnd : (m.map Prod.fst).Nodup) : mapGet k (mapDel k m) = none := by
  induction m with
  | nil => rfl
  | cons e rest ih =>
    obtain ⟨k2, v2⟩ := e
    simp only [List.map_cons, List.nodup_cons] at hnd
    by_cases h : k2 = k
    · subst h
      simp only [mapDel, if_pos rfl]
      exact mapGet_eq_none_of_not_mem k2 rest hnd.1
    · simp [mapDel, mapGet, h, ih hnd.2]

/-! ## Frame lemmas for the dispatcher operations -/

theorem handleLockAcquire_frame (getDoc : GetDoc) (s : DispatcherState)
    (connectionId roomId clientId : List Char) (lockTarget : LockTarget) :
    (handleLockAcquire getDoc s connectionId roomId clientId lockTarget).1.connectionsById =
      s.connectionsById ∧
    (handleLockAcquire getDoc s connectionId roomId clientId lockTarget).1.roomConnections =
      s.roomConnections := by
  unfold handleLockAcquire
  dsimp only
  repeat' split
  all_goals exact ⟨rfl, rfl⟩

theorem handleLockReleaseRequest_frame (s : DispatcherState)
    (connectionId roomId clientId : List Char) (lockTarget : LockTarget) :
    (handleLockReleaseRequest s connectionId roomId clientId lockTarget).1.connectionsById =
      s.connectionsById ∧
    (handleLockReleaseRequest s connectionId roomId clientId lockTarget).1.roomConnections =
      s.roomConnections := by
  unfold handleLockReleaseRequest
  dsimp only
  repeat' split
  all_goals exact ⟨rfl, rfl⟩

theorem subscribeConnectionToRoom_roomLocks (s : DispatcherState)
    (connectionId roomId : List Char) :
    (subscribeConnectionToRoom s connectionId roomId).roomLocks = s.roomLocks := by
  unfold subscribeConnectionToRoom
  dsimp only
  repeat' split
  all_goals rfl

theorem subscribeConnectionToRoom_get_self (s : DispatcherState)
    (connectionId roomId : List Char) (cs : ConnectionState)
    (h : mapGet connectionId s.connectionsById = some cs) :
    mapGet connectionId (subscribeConnectionToRoom s connectionId roomId).connectionsById =
      some { cs with subscribedRooms := setAdd roomId cs.subscribedRooms } := by
  unfold subscribeConnectionToRoom
  rw [h]
  dsimp only
  cases h2 : mapGet roomId s.roomConnections <;> simp [mapGet_mapSet_self]

/-! ## clientId lifecycle (C4) -/

/-- The always-absent room accessor (`getCurrentRoomDoc` returning `null`). -/
def emptyGetDoc : GetDoc := fun _ => none

/-- C4 counterexample: the first `join` on conn-a stores clientId `client-x`,
and a second `join` on the same connection carrying `client-y` overwrites the
stored clientId (the `join` arm assigns unconditionally), so a later message
does change it. -/
theorem C4_second_join_overwrites_counterexample :
    Option.map ConnectionState.clientId (mapGet "conn-a".toList
      (dispatch emptyGetDoc (registerConnection initialDispatcherState "conn-a".toList)
        "conn-a".toList (.join "room-1".toList "client-x".toList)).1.connectionsById) =
      some (some "client-x".toList) ∧
    Option.map ConnectionState.clientId (mapGet "conn-a".toList
      (dispatch emptyGetDoc
        (dispatch emptyGetDoc (registerConnection initialDispatcherState "conn-a".toList)
          "conn-a".toList (.join "room-1".toList "client-x".toList)).1
        "conn-a".toList (.join "room-1".toList "client-y".toList)).1.connectionsById) =
      some (some "client-y".toList) ∧
    "client-y".toList ≠ "client-x".toList := by
  refine ⟨by decide, by decide, by decide⟩

/-- C4 (amended): every `join` sets the connection's stored clientId to the
message's clientId (so a later join with a different clientId overwrites it);
`lockAcquire` sets it to the message's clientId only when it is still unset
and leaves it unchanged otherwise; `subscribe`, `patchDraft`, `lockReleased`
and unsupported messages never change it. -/
theorem C4_clientId_lifecycle_amended :
    ∀ (getDoc : GetDoc) (s : DispatcherState) (connectionId : List Char)
      (cs : ConnectionState),
      mapGet connectionId s.connectionsById = some cs →
      (∀ roomId clientId,
        (mapGet connectionId
          (dispatch getDoc s connectionId (.join roomId clientId)).1.connectionsById).map
          ConnectionState.clientId = some (some clientId)) ∧
      (∀ roomId clientId t,
        (mapGet connectionId
          (dispatch getDoc s connectionId
            (.lockAcquire roomId clientId t)).1.connectionsById).map
          ConnectionState.clientId =
          some (if cs.clientId = none then some clientId else cs.clientId)) ∧
      (∀ roomId,
        (mapGet connectionId
          (dispatch getDoc s connectionId (.subscribe roomId)).1.connectionsById).map
          ConnectionState.clientId = some cs.clientId) ∧
      (∀ roomId draftId baseVersionId ops,
        (mapGet connectionId
          (dispatch getDoc s connectionId
            (.patchDraft roomId draftId baseVersionId ops)).1.connectionsById).map
          ConnectionState.clientId = some cs.clientId) ∧
      (∀ roomId clientId t,
        (mapGet connectionId
          (dispatch getDoc s connectionId
            (.lockReleased roomId clientId t)).1.connectionsById).map
          ConnectionState.clientId = some cs.clientId) ∧
      (∀ ty,
        (mapGet connectionId
          (dispatch getDoc s connectionId (.other ty)).1.connectionsById).map
          ConnectionState.clientId = some cs.clientId) := by
  intro getDoc s connectionId cs h
  refine ⟨?_, ?_, ?_, ?_, ?_, ?_⟩
  · intro roomId clientId
    unfold dispatch
    rw [h]
    dsimp only
    rw [subscribeConnectionToRoom_get_self _ _ _ _ (mapGet_mapSet_self _ _ _)]
    rfl
  · intro roomId clientId t
    unfold dispatch
    rw [h]
    dsimp only
    rw [(handleLockAcquire_frame _ _ _ _ _ _).1, mapGet_mapSet_self]
    by_cases hc : cs.clientId = none <;> simp [hc]
  · intro roomId
    unfold dispatch
    rw [h]
    dsimp only
    rw [subscribeConnectionToRoom_get_self _ _ _ _ h]
    rfl
  · intro roomId draftId baseVersionId ops
    unfold dispatch
    rw [h]
    dsimp only
    rw [h]
    rfl
  · intro roomId clientId t
    unfold dispatch
    rw [h]
    dsimp only
    rw [(handleLockReleaseRequest_frame _ _ _ _ _).1, h]
    rfl
  · intro ty
    unfold dispatch
    rw [h]
    dsimp only
    rw [h]
    rfl

/-- Witness for C4 (amended): a concrete join stores the message's clientId,
and a concrete lockAcquire on a connection with a set clientId leaves it
unchanged. -/
theorem C4_clientId_lifecycle_witness :
    (mapGet "conn-a".toList
      ((dispatch emptyGetDoc (registerConnection initialDispatcherState "conn-a".toList)
        "conn-a".toList (.join "room-1".toList "client-x".toList)).1.connectionsById)).map
      ConnectionState.clientId = some (some "client-x".toList) :=
  (C4_clientId_lifecycle_amended emptyGetDoc
    (registerConnection initialDispatcherState "conn-a".toList) "conn-a".toList
    ⟨"conn-a".toList, none, []⟩ (by decide)).1 "room-1".toList "client-x".toList

/-! ## lockAcquire behavior (C3) -/

/-- Branch-by-branch specification of `handleLockAcquire` over an arbitrary
state. -/
theorem handleLockAcquire_spec (getDoc : GetDoc) (s1 : DispatcherState)
    (connectionId roomId clientId : List Char) (t : LockTarget) :
    (getDoc roomId = none →
      handleLockAcquire getDoc s1 connectionId roomId clientId t =
        (s1, [(connectionId, .errorMsg "ROOM_NOT_FOUND".toList)])) ∧
    (∀ d, getDoc roomId = some d → isLockTargetValidForRoom d t = false →
      handleLockAcquire getDoc s1 connectionId roomId clientId t =
        (s1, [(connectionId, .lockDenied roomId clientId t "invalidTarget".toList)])) ∧
    (∀ d own, getDoc roomId = some d → isLockTargetValidForRoom d t = true →
      mapGet (getLockTargetKey t) (roomLockMapOf s1 roomId) = some own →
      own.ownerConnectionId ≠ connectionId ∨ own.ownerClientId ≠ clientId →
      handleLockAcquire getDoc s1 connectionId roomId clientId t =
        (s1, [(connectionId, .lockDenied roomId clientId t "alreadyLocked".toList)])) ∧
    (∀ d, getDoc roomId = some d → isLockTargetValidForRoom d t = true →
      (mapGet (getLockTargetKey t) (roomLockMapOf s1 roomId) = none ∨
       mapGet (getLockTargetKey t) (roomLockMapOf s1 roomId) =
         some ⟨connectionId, clientId⟩) →
      handleLockAcquire getDoc s1 connectionId roomId clientId t =
        (DispatcherState.mk s1.connectionsById s1.roomConnections
          (mapSet roomId
            (mapSet (getLockTargetKey t) ⟨connectionId, clientId⟩ (roomLockMapOf s1 roomId))
            s1.roomLocks),
         [(connectionId, .lockGranted roomId clientId t)])) := by
  refine ⟨?_, ?_, ?_, ?_⟩
  · intro hdoc
    unfold handleLockAcquire
    rw [hdoc]
  · intro d hdoc hv
    unfold handleLockAcquire
    rw [hdoc]
    dsimp only
    rw [hv]
    simp
  · intro d own hdoc hv hown hpair
    unfold handleLockAcquire
    rw [hdoc]
    dsimp only
    rw [hv]
    simp only [Bool.true_eq_false, not_true_eq_false, if_false, ite_false]
    rw [hown]
    dsimp only
    rw [if_pos hpair]
  · intro d hdoc hv hcase
    unfold handleLockAcquire
    rw [hdoc]
    dsimp only
    rw [hv]
    simp only [Bool.true_eq_false, not_true_eq_false, if_false, ite_false]
    cases hcase with
    | inl hnone => rw [hnone]
    | inr hself =>
      rw [hself]
      dsimp only
      have hno : ¬(LockOwnership.ownerConnectionId ⟨connectionId, clientId⟩ ≠ connectionId ∨
          LockOwnership.ownerClientId ⟨connectionId, clientId⟩ ≠ clientId) := by
        simp
      rw [if_neg hno]

/-- C3: for a `lockAcquire` from a registered connection — (1) when the room
doc accessor returns `null`, the sender alone receives `error ROOM_NOT_FOUND`
and the lock registry is unchanged; (2) when the target is invalid for the
doc (atomic componentId differing from the doc's atomic componentId, or page
pageId differing from the doc's page pageId), the sender alone receives
`lockDenied invalidTarget` and the registry is unchanged; (3) when the entry
for (room, canonical key) is owned by a different (connectionId, clientId)
pair, the sender alone receives `lockDenied alreadyLocked` and the registry
is unchanged; (4) otherwise (no entry, or entry owned by this very
connection+client) ownership is recorded as (this connectionId, this
clientId) and the sender alone receives `lockGranted`. -/
theorem C3_lockAcquire_behavior :
    ∀ (getDoc : GetDoc) (s : DispatcherState) (connectionId : List Char)
      (cs : ConnectionState) (roomId clientId : List Char) (t : LockTarget),
      mapGet connectionId s.connectionsById = some cs →
      (getDoc roomId = none →
        (dispatch getDoc s connectionId (.lockAcquire roomId clientId t)).2 =
          [(connectionId, .errorMsg "ROOM_NOT_FOUND".toList)] ∧
        (dispatch getDoc s connectionId (.lockAcquire roomId clientId t)).1.roomLocks =
          s.roomLocks) ∧
      (∀ d, getDoc roomId = some d → isLockTargetValidForRoom d t = false →
        (dispatch getDoc s connectionId (.lockAcquire roomId clientId t)).2 =
          [(connectionId, .lockDenied roomId clientId t "invalidTarget".toList)] ∧
        (dispatch getDoc s connectionId (.lockAcquire roomId clientId t)).1.roomLocks =
          s.roomLocks) ∧
      (∀ d own, getDoc roomId = some d → isLockTargetValidForRoom d t = true →
        mapGet (getLockTargetKey t) (roomLockMapOf s roomId) = some own →
        own.ownerConnectionId ≠ connectionId ∨ own.ownerClientId ≠ clientId →
        (dispatch getDoc s connectionId (.lockAcquire roomId clientId t)).2 =
          [(connectionId, .lockDenied roomId clientId t "alreadyLocked".toList)] ∧
        (dispatch getDoc s connectionId (.lockAcquire roomId clientId t)).1.roomLocks =
          s.roomLocks) ∧
      (∀ d, getDoc roomId = some d → isLockTargetValidForRoom d t = true →
        (mapGet (getLockTargetKey t) (roomLockMapOf s roomId) = none ∨
         mapGet (getLockTargetKey t) (roomLockMapOf s roomId) =
           some ⟨connectionId, clientId⟩) →
        (dispatch getDoc s connectionId (.lockAcquire roomId clientId t)).2 =
          [(connectionId, .lockGranted roomId clientId t)] ∧
        mapGet (getLockTargetKey t)
          (roomLockMapOf (dispatch getDoc s connectionId
            (.lockAcquire roomId clientId t)).1 roomId) =
          some ⟨connectionId, clientId⟩) := by
  intro getDoc s connectionId cs roomId clientId t h
  have hd : dispatch getDoc s connectionId (.lockAcquire roomId clientId t) =
      handleLockAcquire getDoc
        (DispatcherState.mk
          (mapSet connectionId
            (if cs.clientId = none then
              ConnectionState.mk cs.connectionId (some clientId) cs.subscribedRooms
            else cs)
            s.connectionsById)
          s.roomConnections s.roomLocks)
        connectionId roomId clientId t := by
    unfold dispatch
    rw [h]
  obtain ⟨spec1, spec2, spec3, spec4⟩ := handleLockAcquire_spec getDoc
    (DispatcherState.mk
      (mapSet connectionId
        (if cs.clientId = none then
          ConnectionState.mk cs.connectionId (some clientId) cs.subscribedRooms
        else cs)
        s.connectionsById)
      s.roomConnections s.roomLocks)
    connectionId roomId clientId t
  refine ⟨?_, ?_, ?_, ?_⟩
  · intro hdoc
    rw [hd, spec1 hdoc]
    exact ⟨rfl, rfl⟩
  · intro d hdoc hv
    rw [hd, spec2 d hdoc hv]
    exact ⟨rfl, rfl⟩
  · intro d own hdoc hv hown hpair
    rw [hd, spec3 d own hdoc hv hown hpair]
    exact ⟨rfl, rfl⟩
  · intro d hdoc hv hcase
    rw [hd, spec4 d hdoc hv hcase]
    refine ⟨rfl, ?_⟩
    show mapGet (getLockTargetKey t)
      ((mapGet roomId (mapSet roomId
        (mapSet (getLockTargetKey t) ⟨connectionId, clientId⟩ (roomLockMapOf s roomId))
        s.roomLocks)).getD []) = some ⟨connectionId, clientId⟩
    rw [mapGet_mapSet_self]
    exact mapGet_mapSet_self _ _ _

/-- Witness for C3 at a concrete scenario: a granted acquire on the fixture
doc, and a denied acquire for a target not in the doc. -/
theorem C3_lockAcquire_witness :
    (dispatch fixtureGetDoc (registerConnection initialDispatcherState "conn-a".toList)
      "conn-a".toList (.lockAcquire "room-1".toList "client-a".toList
        (.atomic "component-hero".toList))).2 =
      [("conn-a".toList, .lockGranted "room-1".toList "client-a".toList
        (.atomic "component-hero".toList))] ∧
    (dispatch fixtureGetDoc (registerConnection initialDispatcherState "conn-a".toList)
      "conn-a".toList (.lockAcquire "room-1".toList "client-a".toList
        (.atomic "unknown-component".toList))).2 =
      [("conn-a".toList, .lockDenied "room-1".toList "client-a".toList
        (.atomic "unknown-component".toList) "invalidTarget".toList)] := by
  constructor
  · exact ((C3_lockAcquire_behavior fixtureGetDoc
      (registerConnection initialDispatcherState "conn-a".toList) "conn-a".toList
      ⟨"conn-a".toList, none, []⟩ "room-1".toList "client-a".toList
      (.atomic "component-hero".toList) (by decide)).2.2.2
      (⟨"room-1".toList, "version-003".toList,
        ⟨"component-hero".toList, "text-4xl".toList⟩,
        ⟨"page-home".toList, []⟩⟩ : CurrentRoomDocResponse)
      (by decide) (by decide) (Or.inl (by decide))).1
  · exact ((C3_lockAcquire_behavior fixtureGetDoc
      (registerConnection initialDispatcherState "conn-a".toList) "conn-a".toList
      ⟨"conn-a".toList, none, []⟩ "room-1".toList "client-a".toList
      (.atomic "unknown-component".toList) (by decide)).2.1
      (⟨"room-1".toList, "version-003".toList,
        ⟨"component-hero".toList, "text-4xl".toList⟩,
        ⟨"page-home".toList, []⟩⟩ : CurrentRoomDocResponse)
      (by decide) (by decide)).1

/-! ## lockReleased behavior (C6) -/

/-- When every member of the room is registered, `broadcastToRoom` delivers
the message to exactly the membership list, in membership order. -/
theorem broadcastToRoom_all_registered (s : DispatcherState) (roomId : List Char)
    (msg : ServerMsg) (ids : List (List Char))
    (hmem : mapGet roomId s.roomConnections = some ids)
    (hreg : ∀ cid ∈ ids, (mapGet cid s.connectionsById).isSome = true) :
    broadcastToRoom s roomId msg = ids.map fun cid => (cid, msg) := by
  unfold broadcastToRoom
  rw [hmem]
  dsimp only
  clear hmem
  induction ids with
  | nil => rfl
  | cons a rest ih =>
    rw [List.filterMap_cons]
    cases hga : mapGet a s.connectionsById with
    | none =>
      have := hreg a (List.mem_cons_self a rest)
      rw [hga] at this
      simp at this
    | some cs =>
      rw [List.map_cons, ih fun cid hm => hreg cid (List.mem_cons_of_mem a hm)]

/-- Branch-by-branch specification of `handleLockReleaseRequest` over an
arbitrary state. -/
theorem handleLockReleaseRequest_spec (s : DispatcherState)
    (connectionId roomId clientId : List Char) (t : LockTarget) :
    (mapGet roomId s.roomLocks = none →
      handleLockReleaseRequest s connectionId roomId clientId t = (s, [])) ∧
    (∀ m, mapGet roomId s.roomLocks = some m →
      mapGet (getLockTargetKey t) m = none →
      handleLockReleaseRequest s connectionId roomId clientId t = (s, [])) ∧
    (∀ m own, mapGet roomId s.roomLocks = some m →
      mapGet (getLockTargetKey t) m = some own →
      own.ownerConnectionId ≠ connectionId ∨ own.ownerClientId ≠ clientId →
      handleLockReleaseRequest s connectionId roomId clientId t = (s, [])) ∧
    (∀ m, mapGet roomId s.roomLocks = some m →
      mapGet (getLockTargetKey t) m = some ⟨connectionId, clientId⟩ →
      handleLockReleaseRequest s connectionId roomId clientId t =
        (DispatcherState.mk s.connectionsById s.roomConnections
          (if (mapDel (getLockTargetKey t) m).length < 1 then mapDel roomId s.roomLocks
           else mapSet roomId (mapDel (getLockTargetKey t) m) s.roomLocks),
         broadcastToRoom s roomId (.lockReleased roomId clientId t))) := by
  refine ⟨?_, ?_, ?_, ?_⟩
  · intro hroom
    unfold handleLockReleaseRequest
    rw [hroom]
  · intro m hroom hkey
    unfold handleLockReleaseRequest
    rw [hroom]
    dsimp only
    rw [hkey]
  · intro m own hroom hkey hpair
    unfold handleLockReleaseRequest
    rw [hroom]
    dsimp only
    rw [hkey]
    dsimp only
    rw [if_pos hpair]
  · intro m hroom hkey
    unfold handleLockReleaseRequest
    rw [hroom]
    dsimp only
    rw [hkey]
    dsimp only
    have hno : ¬(LockOwnership.ownerConnectionId ⟨connectionId, clientId⟩ ≠ connectionId ∨
        LockOwnership.ownerClientId ⟨connectionId, clientId⟩ ≠ clientId) := by
      simp
    rw [if_neg hno]

/-- C6: for a `lockReleased` request from a registered connection — when no
entry exists for (room, canonical key), or the requesting (connectionId,
clientId) pair differs from the recorded owner, the dispatcher sends no
message at all and the whole state (lock registry included) is unchanged
(silent no-op, not an error); when the pair matches exactly, the entry is
deleted (pruning the room's lock map when it becomes empty) and a
`lockReleased` message is delivered to every connection in the room's
membership, the releaser included when it is a member. -/
theorem C6_lockRelease_behavior :
    ∀ (getDoc : GetDoc) (s : DispatcherState) (connectionId : List Char)
      (cs : ConnectionState) (roomId clientId : List Char) (t : LockTarget),
      mapGet connectionId s.connectionsById = some cs →
      (mapGet roomId s.roomLocks = none →
        dispatch getDoc s connectionId (.lockReleased roomId clientId t) = (s, [])) ∧
      (∀ m, mapGet roomId s.roomLocks = some m →
        mapGet (getLockTargetKey t) m = none →
        dispatch getDoc s connectionId (.lockReleased roomId clientId t) = (s, [])) ∧
      (∀ m own, mapGet roomId s.roomLocks = some m →
        mapGet (getLockTargetKey t) m = some own →
        own.ownerConnectionId ≠ connectionId ∨ own.ownerClientId ≠ clientId →
        dispatch getDoc s connectionId (.lockReleased roomId clientId t) = (s, [])) ∧
      (∀ m ids, mapGet roomId s.roomLocks = some m →
        mapGet (getLockTargetKey t) m = some ⟨connectionId, clientId⟩ →
        (m.map Prod.fst).Nodup →
        (s.roomLocks.map Prod.fst).Nodup →
        mapGet roomId s.roomConnections = some ids →
        (∀ cid ∈ ids, (mapGet cid s.connectionsById).isSome = true) →
        mapGet (getLockTargetKey t)
          (roomLockMapOf
            (dispatch getDoc s connectionId (.lockReleased roomId clientId t)).1 roomId) =
          none ∧
        ((mapDel (getLockTargetKey t) m).length < 1 →
          mapGet roomId
            (dispatch getDoc s connectionId (.lockReleased roomId clientId t)).1.roomLocks =
            none) ∧
        (¬(mapDel (getLockTargetKey t) m).length < 1 →
          mapGet roomId
            (dispatch getDoc s connectionId (.lockReleased roomId clientId t)).1.roomLocks =
            some (mapDel (getLockTargetKey t) m)) ∧
        (dispatch getDoc s connectionId (.lockReleased roomId clientId t)).2 =
          ids.map fun cid => (cid, .lockReleased roomId clientId t)) := by
  intro getDoc s connectionId cs roomId clientId t h
  have hd : dispatch getDoc s connectionId (.lockReleased roomId clientId t) =
      handleLockReleaseRequest s connectionId roomId clientId t := by
    unfold dispatch
    rw [h]
  obtain ⟨spec1, spec2, spec3, spec4⟩ :=
    handleLockReleaseRequest_spec s connectionId roomId clientId t
  refine ⟨?_, ?_, ?_, ?_⟩
  · intro hroom
    rw [hd, spec1 hroom]
  · intro m hroom hkey
    rw [hd, spec2 m hroom hkey]
  · intro m own hroom hkey hpair
    rw [hd, spec3 m own hroom hkey hpair]
  · intro m ids hroom hkey hnd hLocksNd hmem hreg
    rw [hd, spec4 m hroom hkey]
    refine ⟨?_, ?_, ?_, ?_⟩
    · unfold roomLockMapOf
      dsimp only
      by_cases hlen : (mapDel (getLockTargetKey t) m).length < 1
      · rw [if_pos hlen, mapGet_mapDel_self roomId s.roomLocks hLocksNd]
        rfl
      · rw [if_neg hlen, mapGet_mapSet_self]
        exact mapGet_mapDel_self _ _ hnd
    · intro hlen
      dsimp only
      rw [if_pos hlen]
      exact mapGet_mapDel_self _ _ hLocksNd
    · intro hlen
      dsimp only
      rw [if_neg hlen]
      exact mapGet_mapSet_self _ _ _
    · exact broadcastToRoom_all_registered s roomId _ ids hmem hreg

/-- Scenario state shared by the release/fan-out witnesses: conn-a and conn-b
joined room-1 and conn-a was granted the atomic `component-hero` lock. -/
def twoMemberLockedState : DispatcherState :=
  (dispatch fixtureGetDoc
    ((dispatch fixtureGetDoc
      ((dispatch fixtureGetDoc
        (registerConnection (registerConnection initialDispatcherState "conn-a".toList)
          "conn-b".toList)
        "conn-a".toList (.join "room-1".toList "client-a".toList)).1)
      "conn-b".toList (.join "room-1".toList "client-b".toList)).1)
    "conn-a".toList
    (.lockAcquire "room-1".toList "client-a".toList (.atomic "component-hero".toList))).1

/-- Witness for C6: in the concrete two-member scenario a non-holder release
by conn-b is a silent no-op, and the holder's release broadcasts
`lockReleased` to both members (the releaser included). -/
theorem C6_lockRelease_witness :
    dispatch fixtureGetDoc twoMemberLockedState "conn-b".toList
      (.lockReleased "room-1".toList "client-b".toList (.atomic "component-hero".toList)) =
      (twoMemberLockedState, []) ∧
    (dispatch fixtureGetDoc twoMemberLockedState "conn-a".toList
      (.lockReleased "room-1".toList "client-a".toList
        (.atomic "component-hero".toList))).2 =
      ["conn-a".toList, "conn-b".toList].map
        (fun cid => (cid, .lockReleased "room-1".toList "client-a".toList
          (.atomic "component-hero".toList))) := by
  constructor
  · exact (C6_lockRelease_behavior fixtureGetDoc twoMemberLockedState "conn-b".toList
      ⟨"conn-b".toList, some "client-b".toList, ["room-1".toList]⟩
      "room-1".toList "client-b".toList (.atomic "component-hero".toList) (by decide)).2.2.1
      [(getLockTargetKey (.atomic "component-hero".toList),
        ⟨"conn-a".toList, "client-a".toList⟩)]
      ⟨"conn-a".toList, "client-a".toList⟩ (by decide) (by decide) (Or.inl (by decide))
  · exact ((C6_lockRelease_behavior fixtureGetDoc twoMemberLockedState "conn-a".toList
      ⟨"conn-a".toList, some "client-a".toList, ["room-1".toList]⟩
      "room-1".toList "client-a".toList (.atomic "component-hero".toList) (by decide)).2.2.2
      [(getLockTargetKey (.atomic "component-hero".toList),
        ⟨"conn-a".toList, "client-a".toList⟩)]
      ["conn-a".toList, "conn-b".toList] (by decide) (by decide) (by decide) (by decide)
      (by decide) (by decide)).2.2.2

/-! ## patchDraft fan-out (C8) -/

/-- When every member of the room is registered, `broadcastPatchDraft`
delivers the message to exactly the membership list minus the source
connection, in membership order. -/
theorem broadcastPatchDraft_all_registered (s : DispatcherState)
    (sourceConnectionId roomId : List Char) (msg : ServerMsg) (ids : List (List Char))
    (hmem : mapGet roomId s.roomConnections = some ids)
    (hreg : ∀ cid ∈ ids, (mapGet cid s.connectionsById).isSome = true) :
    broadcastPatchDraft s sourceConnectionId roomId msg =
      (ids.filter fun cid => decide (cid ≠ sourceConnectionId)).map fun cid => (cid, msg) := by
  unfold broadcastPatchDraft
  rw [hmem]
  dsimp only
  clear hmem
  induction ids with
  | nil => rfl
  | cons a rest ih =>
    have ihr := ih fun cid hm => hreg cid (List.mem_cons_of_mem a hm)
    by_cases ha : a = sourceConnectionId
    · simp only [List.filterMap_cons, List.filter_cons, ha]
      simp [ihr]
    · cases hga : mapGet a s.connectionsById with
      | none =>
        have := hreg a (List.mem_cons_self a rest)
        rw [hga] at this
        simp at this
      | some cs =>
        simp only [List.filterMap_cons, List.filter_cons]
        simp [ha, hga, ihr]

/-- Pairing a duplicate-free list of receivers with a fixed message yields
each receiver's delivery exactly once. -/
theorem count_pair_map_nodup (msg : ServerMsg) (l : List (List Char)) (cid : List Char)
    (hnd : l.Nodup) (hin : cid ∈ l) :
    List.count ((cid, msg) : List Char × ServerMsg) (l.map fun c => (c, msg)) = 1 := by
  induction l with
  | nil => cases hin
  | cons a rest ih =>
    rw [List.map_cons]
    rcases List.mem_cons.mp hin with heq | hmem
    · subst heq
      rw [List.count_cons_self]
      have hnotin : ((cid, msg) : List Char × ServerMsg) ∉ rest.map fun c => (c, msg) := by
        intro hc
        rcases List.mem_map.mp hc with ⟨c, hcr, hceq⟩
        have hcc : c = cid := congrArg Prod.fst hceq
        exact (List.nodup_cons.mp hnd).1 (hcc ▸ hcr)
      rw [List.count_eq_zero_of_not_mem hnotin]
    · have hane : a ≠ cid := fun hh => (List.nodup_cons.mp hnd).1 (hh ▸ hmem)
      have hpne : ((cid, msg) : List Char × ServerMsg) ≠ (a, msg) :=
        fun hh => hane (congrArg Prod.fst hh).symm
      rw [List.count_cons_of_ne hpne]
      exact ih (List.nodup_cons.mp hnd).2 hmem

/-- C8: a `patchDraft` from registered connection A is delivered exactly once
to every other connection in the room's membership, as a `patchDraft`
broadcast whose authorClientId is A's clientId (falling back to A's
connectionId when unset), and A itself receives nothing. -/
theorem C8_patchDraft_fanout :
    ∀ (getDoc : GetDoc) (s : DispatcherState) (connectionId : List Char)
      (cs : ConnectionState) (roomId draftId baseVersionId : List Char)
      (ops : List PatchOp) (ids : List (List Char)),
      mapGet connectionId s.connectionsById = some cs →
      cs.connectionId = connectionId →
      mapGet roomId s.roomConnections = some ids →
      (∀ cid ∈ ids, (mapGet cid s.connectionsById).isSome = true) →
      ids.Nodup →
      (dispatch getDoc s connectionId (.patchDraft roomId draftId baseVersionId ops)).2 =
        (ids.filter fun cid => decide (cid ≠ connectionId)).map
          (fun cid => (cid, ServerMsg.patchDraftB roomId draftId baseVersionId
            (cs.clientId.getD connectionId) ops)) ∧
      (∀ msg, (connectionId, msg) ∉
        (dispatch getDoc s connectionId (.patchDraft roomId draftId baseVersionId ops)).2) ∧
      (∀ cid ∈ ids, cid ≠ connectionId →
        (dispatch getDoc s connectionId (.patchDraft roomId draftId baseVersionId ops)).2.count
          (cid, ServerMsg.patchDraftB roomId draftId baseVersionId
            (cs.clientId.getD connectionId) ops) = 1) := by
  intro getDoc s connectionId cs roomId draftId baseVersionId ops ids h hcid hmem hreg hnd
  have hd : (dispatch getDoc s connectionId
      (.patchDraft roomId draftId baseVersionId ops)).2 =
      broadcastPatchDraft s connectionId roomId
        (ServerMsg.patchDraftB roomId draftId baseVersionId
          (cs.clientId.getD connectionId) ops) := by
    unfold dispatch
    rw [h]
    dsimp only
    rw [hcid]
  rw [hd, broadcastPatchDraft_all_registered s connectionId roomId _ ids hmem hreg]
  refine ⟨rfl, ?_, ?_⟩
  · intro msg hin
    rcases List.mem_map.mp hin with ⟨cid, hcf, heq⟩
    have hne : cid ≠ connectionId := by
      have := (List.mem_filter.mp hcf).2
      simpa using this
    exact hne (congrArg Prod.fst heq)
  · intro cid hin hne
    refine count_pair_map_nodup _ _ _ (hnd.filter _) ?_
    rw [List.mem_filter]
    exact ⟨hin, by simpa using hne⟩

/-- Witness for C8: in the concrete two-member room, conn-a's draft reaches
conn-b exactly once and conn-a receives nothing. -/
theorem C8_patchDraft_witness :
    (dispatch fixtureGetDoc twoMemberLockedState "conn-a".toList
      (.patchDraft "room-1".toList "draft-1".toList "version-003".toList
        [.setAtomicClassName "component-hero".toList "text-6xl".toList])).2 =
      (["conn-a".toList, "conn-b".toList].filter
        fun cid => decide (cid ≠ "conn-a".toList)).map
        (fun cid => (cid, ServerMsg.patchDraftB "room-1".toList "draft-1".toList
          "version-003".toList
          ((some "client-a".toList).getD "conn-a".toList)
          [.setAtomicClassName "component-hero".toList "text-6xl".toList])) :=
  (C8_patchDraft_fanout fixtureGetDoc twoMemberLockedState "conn-a".toList
    ⟨"conn-a".toList, some "client-a".toList, ["room-1".toList]⟩
    "room-1".toList "draft-1".toList "version-003".toList
    [.setAtomicClassName "component-hero".toList "text-6xl".toList]
    ["conn-a".toList, "conn-b".toList]
    (by decide) (by decide) (by decide) (by decide) (by decide)).1

/-! ## Locks held by non-members (C10) -/

/-- C10: `lockAcquire` never touches room membership (so a connection can
hold a lock in a room it never joined or subscribed to), and when such a
non-member successfully releases its lock via `lockReleased`, the entry is
deleted and the `lockReleased` broadcast goes exactly to the room's members —
the releasing connection itself receives no message. -/
theorem C10_nonmember_lock_lifecycle :
    (∀ (getDoc : GetDoc) (s : DispatcherState) (connectionId roomId clientId : List Char)
      (t : LockTarget),
      (dispatch getDoc s connectionId (.lockAcquire roomId clientId t)).1.roomConnections =
        s.roomConnections) ∧
    (∀ (getDoc : GetDoc) (s : DispatcherState) (connectionId : List Char)
      (cs : ConnectionState) (roomId clientId : List Char) (t : LockTarget)
      (m : List (List Char × LockOwnership)) (ids : List (List Char)),
      mapGet connectionId s.connectionsById = some cs →
      mapGet roomId s.roomLocks = some m →
      mapGet (getLockTargetKey t) m = some ⟨connectionId, clientId⟩ →
      (m.map Prod.fst).Nodup →
      (s.roomLocks.map Prod.fst).Nodup →
      mapGet roomId s.roomConnections = some ids →
      (∀ cid ∈ ids, (mapGet cid s.connectionsById).isSome = true) →
      connectionId ∉ ids →
      mapGet (getLockTargetKey t)
        (roomLockMapOf
          (dispatch getDoc s connectionId (.lockReleased roomId clientId t)).1 roomId) =
        none ∧
      (dispatch getDoc s connectionId (.lockReleased roomId clientId t)).2 =
        ids.map (fun cid => (cid, .lockReleased roomId clientId t)) ∧
      (∀ msg, (connectionId, msg) ∉
        (dispatch getDoc s connectionId (.lockReleased roomId clientId t)).2)) := by
  constructor
  · intro getDoc s connectionId roomId clientId t
    cases hc : mapGet connectionId s.connectionsById with
    | none =>
      unfold dispatch
      rw [hc]
    | some cs =>
      unfold dispatch
      rw [hc]
      dsimp only
      exact (handleLockAcquire_frame _ _ _ _ _ _).2
  · intro getDoc s connectionId cs roomId clientId t m ids h hroom hkey hnd hLocksNd hmem
      hreg hnotmem
    have hd : dispatch getDoc s connectionId (.lockReleased roomId clientId t) =
        handleLockReleaseRequest s connectionId roomId clientId t := by
      unfold dispatch
      rw [h]
    have hspec := (handleLockReleaseRequest_spec s connectionId roomId clientId t).2.2.2
      m hroom hkey
    have hb : broadcastToRoom s roomId (.lockReleased roomId clientId t) =
        ids.map fun cid => (cid, .lockReleased roomId clientId t) :=
      broadcastToRoom_all_registered s roomId _ ids hmem hreg
    refine ⟨?_, ?_, ?_⟩
    · rw [hd, hspec]
      unfold roomLockMapOf
      dsimp only
      by_cases hlen : (mapDel (getLockTargetKey t) m).length < 1
      · rw [if_pos hlen, mapGet_mapDel_self roomId s.roomLocks hLocksNd]
        rfl
      · rw [if_neg hlen, mapGet_mapSet_self]
        exact mapGet_mapDel_self _ _ hnd
    · rw [hd, hspec]
      exact hb
    · intro msg hin
      rw [hd, hspec] at hin
      dsimp only at hin
      rw [hb] at hin
      rcases List.mem_map.mp hin with ⟨cid, hcin, heq⟩
      have hc2 : cid = connectionId := by simpa using congrArg Prod.fst heq
      exact hnotmem (hc2 ▸ hcin)

/-- Scenario for the C10 witness: conn-a joins room-1; conn-x registers but
never joins or subscribes anywhere, then acquires (and is granted) the atomic
lock in room-1. -/
def nonMemberLockState : DispatcherState :=
  (dispatch fixtureGetDoc
    ((dispatch fixtureGetDoc
      (registerConnection (registerConnection initialDispatcherState "conn-a".toList)
        "conn-x".toList)
      "conn-a".toList (.join "room-1".toList "client-a".toList)).1)
    "conn-x".toList
    (.lockAcquire "room-1".toList "client-x".toList (.atomic "component-hero".toList))).1

/-- Witness for C10: the concrete non-member acquire left membership
untouched, and the non-member's release broadcasts only to conn-a. -/
theorem C10_nonmember_witness :
    (dispatch fixtureGetDoc
      ((dispatch fixtureGetDoc
        (registerConnection (registerConnection initialDispatcherState "conn-a".toList)
          "conn-x".toList)
        "conn-a".toList (.join "room-1".toList "client-a".toList)).1)
      "conn-x".toList
      (.lockAcquire "room-1".toList "client-x".toList
        (.atomic "component-hero".toList))).1.roomConnections =
      ((dispatch fixtureGetDoc
        (registerConnection (registerConnection initialDispatcherState "conn-a".toList)
          "conn-x".toList)
        "conn-a".toList (.join "room-1".toList "client-a".toList)).1).roomConnections ∧
    (dispatch fixtureGetDoc nonMemberLockState "conn-x".toList
      (.lockReleased "room-1".toList "client-x".toList
        (.atomic "component-hero".toList))).2 =
      ["conn-a".toList].map
        (fun cid => (cid, .lockReleased "room-1".toList "client-x".toList
          (.atomic "component-hero".toList))) := by
  constructor
  · exact C10_nonmember_lock_lifecycle.1 fixtureGetDoc _ "conn-x".toList "room-1".toList
      "client-x".toList (.atomic "component-hero".toList)
  · exact (C10_nonmember_lock_lifecycle.2 fixtureGetDoc nonMemberLockState "conn-x".toList
      ⟨"conn-x".toList, some "client-x".toList, []⟩
      "room-1".toList "client-x".toList (.atomic "component-hero".toList)
      [(getLockTargetKey (.atomic "component-hero".toList),
        ⟨"conn-x".toList, "client-x".toList⟩)]
      ["conn-a".toList]
      (by decide) (by decide) (by decide) (by decide) (by decide) (by decide) (by decide)
      (by decide)).2.1

/-! ## Room isolation (C9) -/

/-- The current membership list of a room (empty when the room has no
entry). -/
def roomMembers (s : DispatcherState) (roomId : List Char) : List (List Char) :=
  (mapGet roomId s.roomConnections).getD []

/-- The room a server message is fan-out-scoped to: `presence`, `patchDraft`
broadcasts and `lockReleased` are delivered through room fan-out; every other
kind is a direct reply. -/
def roomOfFanOut : ServerMsg → Option (List Char)
  | .presence roomId _ => some roomId
  | .patchDraftB roomId _ _ _ _ => some roomId
  | .lockReleased roomId _ _ => some roomId
  | _ => none

theorem broadcastToRoom_mem (s : DispatcherState) (r : List Char) (msg m : ServerMsg)
    (receiver : List Char) (hin : (receiver, m) ∈ broadcastToRoom s r msg) :
    m = msg ∧ receiver ∈ roomMembers s r := by
  unfold broadcastToRoom at hin
  unfold roomMembers
  cases hm : mapGet r s.roomConnections with
  | none =>
    rw [hm] at hin
    cases hin
  | some ids =>
    rw [hm] at hin
    dsimp only at hin ⊢
    rcases List.mem_filterMap.mp hin with ⟨cid, hcin, hf⟩
    cases hg : mapGet cid s.connectionsById with
    | none =>
      rw [hg] at hf
      cases hf
    | some cs =>
      rw [hg] at hf
      obtain ⟨h1, h2⟩ := Prod.mk.injEq .. ▸ Option.some_injective _ hf
      exact ⟨h2.symm, h1 ▸ hcin⟩

theorem broadcastPatchDraft_mem (s : DispatcherState) (src r : List Char)
    (msg m : ServerMsg) (receiver : List Char)
    (hin : (receiver, m) ∈ broadcastPatchDraft s src r msg) :
    m = msg ∧ receiver ∈ roomMembers s r := by
  unfold broadcastPatchDraft at hin
  unfold roomMembers
  cases hm : mapGet r s.roomConnections with
  | none =>
    rw [hm] at hin
    cases hin
  | some ids =>
    rw [hm] at hin
    dsimp only at hin ⊢
    rcases List.mem_filterMap.mp hin with ⟨cid, hcin, hf⟩
    by_cases hsrc : cid = src
    · rw [if_pos hsrc] at hf
      cases hf
    · rw [if_neg hsrc] at hf
      cases hg : mapGet cid s.connectionsById with
      | none =>
        rw [hg] at hf
        cases hf
      | some cs =>
        rw [hg] at hf
        obtain ⟨h1, h2⟩ := Prod.mk.injEq .. ▸ Option.some_injective _ hf
        exact ⟨h2.symm, h1 ▸ hcin⟩

theorem broadcastPresence_mem (s : DispatcherState) (r : List Char) (m : ServerMsg)
    (receiver : List Char) (hin : (receiver, m) ∈ broadcastPresence s r) :
    (∃ clientIds, m = .presence r clientIds) ∧ receiver ∈ roomMembers s r := by
  unfold broadcastPresence at hin
  cases hm : mapGet r s.roomConnections with
  | none =>
    rw [hm] at hin
    cases hin
  | some ids =>
    rw [hm] at hin
    dsimp only at hin
    have := broadcastToRoom_mem s r _ m receiver hin
    exact ⟨⟨_, this.1⟩, this.2⟩

theorem mem_foldl_append {α β : Type} (f : β → List α) (l : List β) (x : α)
    (init : List α) :
    x ∈ l.foldl (fun acc e => acc ++ f e) init ↔ x ∈ init ∨ ∃ e ∈ l, x ∈ f e := by
  induction l generalizing init with
  | nil => simp
  | cons b rest ih =>
    rw [List.foldl_cons, ih]
    simp [List.mem_append, or_assoc]

theorem releaseLockStep_foldl_mem (s : DispatcherState) (cid r : List Char)
    (entries : List (List Char × LockOwnership))
    (acc : List (List Char × LockOwnership) × List Sent) (x : Sent)
    (hx : x ∈ (entries.foldl (releaseLockStep s cid r) acc).2) :
    x ∈ acc.2 ∨ ∃ cl t, x ∈ broadcastToRoom s r (.lockReleased r cl t) := by
  induction entries generalizing acc with
  | nil => exact Or.inl hx
  | cons e rest ih =>
    rw [List.foldl_cons] at hx
    rcases ih _ hx with hin | hex
    · unfold releaseLockStep at hin
      obtain ⟨ekey, eown⟩ := e
      dsimp only at hin
      by_cases howner : eown.ownerConnectionId ≠ cid
      · rw [if_pos howner] at hin
        exact Or.inl hin
      · rw [if_neg howner] at hin
        cases hp : parseLockTargetKey ekey with
        | none =>
          rw [hp] at hin
          exact Or.inl hin
        | some t =>
          rw [hp] at hin
          dsimp only at hin
          rcases List.mem_append.mp hin with h1 | h2
          · exact Or.inl h1
          · exact Or.inr ⟨eown.ownerClientId, t, h2⟩
    · exact Or.inr hex

theorem releaseLocksForDisconnect_sent_mem (s : DispatcherState)
    (cid : List Char) (receiver : List Char) (m : ServerMsg)
    (hin : (receiver, m) ∈ (releaseLocksForDisconnect s cid).2) :
    ∃ r cl t, m = .lockReleased r cl t ∧ receiver ∈ roomMembers s r := by
  unfold releaseLocksForDisconnect at hin
  dsimp only at hin
  rw [mem_foldl_append] at hin
  rcases hin with hempty | ⟨res, hres, hxin⟩
  · cases hempty
  · rcases List.mem_map.mp hres with ⟨entry, _, hentry⟩
    obtain ⟨rid, lm⟩ := entry
    dsimp only at hentry
    subst hentry
    dsimp only at hxin
    have := releaseLockStep_foldl_mem s cid rid lm (lm, []) (receiver, m) hxin
    rcases this with habs | ⟨cl, t, hb⟩
    · cases habs
    · have hbm := broadcastToRoom_mem s rid _ m receiver hb
      exact ⟨rid, cl, t, hbm.1, hbm.2⟩

theorem sendCurrentDoc_mem (getDoc : GetDoc) (c r receiver : List Char) (m : ServerMsg)
    (hin : (receiver, m) ∈ sendCurrentDoc getDoc c r) :
    receiver = c ∧ roomOfFanOut m = none := by
  unfold sendCurrentDoc at hin
  split at hin <;>
  · have h := List.mem_singleton.mp hin
    refine ⟨congrArg Prod.fst h, ?_⟩
    rw [show m = _ from congrArg Prod.snd h]
    rfl

theorem handleLockAcquire_sent (getDoc : GetDoc) (s : DispatcherState)
    (c r cl receiver : List Char) (t : LockTarget) (m : ServerMsg)
    (hin : (receiver, m) ∈ (handleLockAcquire getDoc s c r cl t).2) :
    receiver = c ∧ roomOfFanOut m = none := by
  unfold handleLockAcquire at hin
  dsimp only at hin
  repeat' split at hin
  all_goals
    have h := List.mem_singleton.mp hin
  all_goals
    refine ⟨congrArg Prod.fst h, ?_⟩
  all_goals
    rw [show m = _ from congrArg Prod.snd h]
  all_goals
    rfl

theorem handleLockReleaseRequest_sent (s : DispatcherState)
    (c r cl receiver : List Char) (t : LockTarget) (m : ServerMsg)
    (hin : (receiver, m) ∈ (handleLockReleaseRequest s c r cl t).2) :
    m = .lockReleased r cl t ∧ receiver ∈ roomMembers s r := by
  unfold handleLockReleaseRequest at hin
  dsimp only at hin
  repeat' split at hin
  all_goals
    first
    | cases hin
    | exact broadcastToRoom_mem s r _ m receiver hin

/-- C9 counterexample: conn-x is subscribed only to room-2, yet acquiring a
lock in room-1 (which it never joined) delivers to conn-x a `lockGranted`
message about the lock granted in room-1 — a message about a room-1 lock
reaching a connection outside room-1's membership. -/
def c9State : DispatcherState :=
  (dispatch fixtureGetDoc
    ((dispatch fixtureGetDoc
      (registerConnection (registerConnection initialDispatcherState "conn-a".toList)
        "conn-x".toList)
      "conn-a".toList (.join "room-1".toList "client-a".toList)).1)
    "conn-x".toList (.subscribe "room-2".toList)).1

/-- C9 counterexample theorem (see `c9State`). -/
theorem C9_room_isolation_counterexample :
    mapGet "room-1".toList c9State.roomConnections = some ["conn-a".toList] ∧
    mapGet "room-2".toList c9State.roomConnections = some ["conn-x".toList] ∧
    (dispatch fixtureGetDoc c9State "conn-x".toList
      (.lockAcquire "room-1".toList "client-x".toList
        (.atomic "component-hero".toList))).2 =
      [("conn-x".toList, .lockGranted "room-1".toList "client-x".toList
        (.atomic "component-hero".toList))] := by
  refine ⟨by decide, by decide, by decide⟩

/-- C9 (amended): the room-scoped fan-out messages (`presence`, `patchDraft`
broadcasts and `lockReleased`) for room R are delivered only to connections
in R's membership set immediately before or immediately after the operation;
every other message `dispatch` produces (doc, error, lockGranted, lockDenied)
is a direct reply delivered only to the dispatching connection itself, which
need not be a member of R. -/
theorem C9_room_isolation_amended :
    (∀ (getDoc : GetDoc) (s : DispatcherState) (connectionId receiver : List Char)
      (msg : ClientMsg) (m : ServerMsg),
      (receiver, m) ∈ (dispatch getDoc s connectionId msg).2 →
      (∀ rid, roomOfFanOut m = some rid →
        receiver ∈ roomMembers s rid ∨
        receiver ∈ roomMembers (dispatch getDoc s connectionId msg).1 rid) ∧
      (roomOfFanOut m = none → receiver = connectionId)) ∧
    (∀ (s : DispatcherState) (connectionId receiver : List Char) (m : ServerMsg),
      (receiver, m) ∈ (disconnect s connectionId).2 →
      ∀ rid, roomOfFanOut m = some rid →
        receiver ∈ roomMembers s rid ∨
        receiver ∈ roomMembers (disconnect s connectionId).1 rid) := by
  constructor
  · intro getDoc s connectionId receiver msg m hin
    cases hc : mapGet connectionId s.connectionsById with
    | none =>
      unfold dispatch at hin
      rw [hc] at hin
      cases hin
    | some cs =>
      cases msg with
      | join roomId clientId =>
        unfold dispatch at hin ⊢
        rw [hc] at hin ⊢
        dsimp only at hin ⊢
        rcases List.mem_append.mp hin with h1 | h2
        · have hs := sendCurrentDoc_mem getDoc connectionId roomId receiver m h1
          refine ⟨?_, fun _ => hs.1⟩
          intro rid hro
          rw [hs.2] at hro
          cases hro
        · have hp := broadcastPresence_mem _ roomId m receiver h2
          refine ⟨?_, ?_⟩
          · intro rid hro
            rcases hp.1 with ⟨cl, hm⟩
            subst hm
            have hr : roomId = rid := by simpa [roomOfFanOut] using hro
            subst hr
            exact Or.inr hp.2
          · intro hnone
            rcases hp.1 with ⟨cl, hm⟩
            subst hm
            simp [roomOfFanOut] at hnone
      | subscribe roomId =>
        unfold dispatch at hin
        rw [hc] at hin
        dsimp only at hin
        have hs := sendCurrentDoc_mem getDoc connectionId roomId receiver m hin
        refine ⟨?_, fun _ => hs.1⟩
        intro rid hro
        rw [hs.2] at hro
        cases hro
      | patchDraft roomId draftId baseVersionId ops =>
        unfold dispatch at hin ⊢
        rw [hc] at hin ⊢
        dsimp only at hin ⊢
        have hp := broadcastPatchDraft_mem s connectionId roomId _ m receiver hin
        refine ⟨?_, ?_⟩
        · intro rid hro
          rw [hp.1] at hro
          have hr : roomId = rid := by simpa [roomOfFanOut] using hro
          subst hr
          exact Or.inl hp.2
        · intro hnone
          rw [hp.1] at hnone
          simp [roomOfFanOut] at hnone
      | lockAcquire roomId clientId t =>
        unfold dispatch at hin
        rw [hc] at hin
        dsimp only at hin
        have ha := handleLockAcquire_sent getDoc _ connectionId roomId clientId receiver t m hin
        refine ⟨?_, fun _ => ha.1⟩
        intro rid hro
        rw [ha.2] at hro
        cases hro
      | lockReleased roomId clientId t =>
        unfold dispatch at hin ⊢
        rw [hc] at hin ⊢
        dsimp only at hin ⊢
        have hr := handleLockReleaseRequest_sent s connectionId roomId clientId receiver t m hin
        refine ⟨?_, ?_⟩
        · intro rid hro
          rw [hr.1] at hro
          have hq : roomId = rid := by simpa [roomOfFanOut] using hro
          subst hq
          exact Or.inl hr.2
        · intro hnone
          rw [hr.1] at hnone
          simp [roomOfFanOut] at hnone
      | other ty =>
        unfold dispatch at hin
        rw [hc] at hin
        dsimp only at hin
        have h := List.mem_singleton.mp hin
        refine ⟨?_, fun _ => congrArg Prod.fst h⟩
        intro rid hro
        rw [show m = _ from congrArg Prod.snd h] at hro
        simp [roomOfFanOut] at hro
  · intro s connectionId receiver m hin rid hro
    cases hc : mapGet connectionId s.connectionsById with
    | none =>
      unfold disconnect at hin
      rw [hc] at hin
      cases hin
    | some cs =>
      unfold disconnect at hin ⊢
      rw [hc] at hin ⊢
      dsimp only at hin ⊢
      rcases List.mem_append.mp hin with h1 | h2
      · rcases releaseLocksForDisconnect_sent_mem s connectionId receiver m h1 with
          ⟨r0, cl, t, hm, hmem⟩
        rw [hm] at hro
        have hq : r0 = rid := by simpa [roomOfFanOut] using hro
        subst hq
        exact Or.inl hmem
      · rw [mem_foldl_append] at h2
        rcases h2 with habs | ⟨r0, _, hbp⟩
        · cases habs
        · have hp := broadcastPresence_mem _ r0 m receiver hbp
          rcases hp.1 with ⟨cl, hm⟩
          subst hm
          have hq : r0 = rid := by simpa [roomOfFanOut] using hro
          subst hq
          exact Or.inr hp.2

/-- Witness for C9 (amended): the concrete `lockReleased` delivery to conn-b
is covered by the fan-out clause — conn-b is a member of room-1. -/
theorem C9_room_isolation_witness :
    "conn-b".toList ∈ roomMembers twoMemberLockedState "room-1".toList ∨
    "conn-b".toList ∈ roomMembers
      (dispatch fixtureGetDoc twoMemberLockedState "conn-a".toList
        (.lockReleased "room-1".toList "client-a".toList
          (.atomic "component-hero".toList))).1 "room-1".toList :=
  (C9_room_isolation_amended.1 fixtureGetDoc twoMemberLockedState "conn-a".toList
    "conn-b".toList
    (.lockReleased "room-1".toList "client-a".toList (.atomic "component-hero".toList))
    (.lockReleased "room-1".toList "client-a".toList (.atomic "component-hero".toList))
    (by decide)).1 "room-1".toList (by decide)

/-! ## Exception behavior of dispatch (C7)

A second embedding of the same dispatcher code in which the two injected
dependencies may throw, mirroring JavaScript exception semantics: the
dispatcher contains no try/catch, so a throw propagates out of `dispatch`,
mutations already performed on the dispatcher's maps persist, and the
remaining statements (including the rest of a fan-out loop) do not run.
`EOut.thrown st` is an exception crossing the dispatch boundary with the
dispatcher state and deliveries made so far being `st`; `EOut.ok st` is a
normal return. -/

/-- The injected dependencies, now able to throw: `getCurrentRoomDoc` may
throw (`Except.error`), and the per-connection `send` callback of the
connection ids selected by `sendThrows` throws when invoked (delivering
nothing). -/
structure ThrowingDeps where
  getCurrentRoomDoc : List Char → Except Unit (Option CurrentRoomDocResponse)
  sendThrows : List Char → Bool

/-- Dispatcher state plus the delivery log. -/
abbrev ESt := DispatcherState × List Sent

/-- Outcome of a dispatcher code path under throwing dependencies. -/
inductive EOut where
  | ok (st : ESt)
  | thrown (st : ESt)
  deriving DecidableEq, Repr

/-- Sequencing with JavaScript exception semantics: once thrown, the rest of
the statements do not run. -/
def eSeq (a : EOut) (f : ESt → EOut) : EOut :=
  match a with
  | .ok st => f st
  | .thrown st => .thrown st

/-- One `connection.send(message)` call: throws (delivering nothing) when the
receiver's callback is a throwing one, otherwise records the delivery. -/
def sendE (deps : ThrowingDeps) (connectionId : List Char) (m : ServerMsg) (st : ESt) :
    EOut :=
  if deps.sendThrows connectionId then .thrown st
  else .ok (st.1, st.2 ++ [(connectionId, m)])

/-- The fan-out loop body of `broadcastToRoom`: one uncaught throwing send
aborts the rest of the loop. -/
def sendToAllE (deps : ThrowingDeps) (msg : ServerMsg) :
    List (List Char) → ESt → EOut
  | [], st => .ok st
  | cid :: rest, st =>
    match mapGet cid st.1.connectionsById with
    | none => sendToAllE deps msg rest st
    | some _ => eSeq (sendE deps cid msg st) (sendToAllE deps msg rest)

/-- `broadcastToRoom` under throwing dependencies. -/
def broadcastToRoomE (deps : ThrowingDeps) (roomId : List Char) (msg : ServerMsg)
    (st : ESt) : EOut :=
  match mapGet roomId st.1.roomConnections with
  | none => .ok st
  | some ids => sendToAllE deps msg ids st

/-- The fan-out loop of `broadcastPatchDraft` (skipping the source). -/
def sendToOthersE (deps : ThrowingDeps) (sourceConnectionId : List Char)
    (msg : ServerMsg) : List (List Char) → ESt → EOut
  | [], st => .ok st
  | cid :: rest, st =>
    if cid = sourceConnectionId then sendToOthersE deps sourceConnectionId msg rest st
    else
      match mapGet cid st.1.connectionsById with
      | none => sendToOthersE deps sourceConnectionId msg rest st
      | some _ => eSeq (sendE deps cid msg st) (sendToOthersE deps sourceConnectionId msg rest)

/-- `broadcastPatchDraft` under throwing dependencies. -/
def broadcastPatchDraftE (deps : ThrowingDeps) (sourceConnectionId roomId : List Char)
    (msg : ServerMsg) (st : ESt) : EOut :=
  match mapGet roomId st.1.roomConnections with
  | none => .ok st
  | some ids => sendToOthersE deps sourceConnectionId msg ids st

/-- `broadcastPresence` under throwing dependencies. -/
def broadcastPresenceE (deps : ThrowingDeps) (roomId : List Char) (st : ESt) : EOut :=
  match mapGet roomId st.1.roomConnections with
  | none => .ok st
  | some ids =>
    let sortedClientIds :=
      sortStable localeCompareLt
        (ids.filterMap fun cid =>
          match mapGet cid st.1.connectionsById with
          | none => none
          | some cs => cs.clientId)
    let uniqueSortedClientIds := sortedClientIds.foldl (fun acc c => setAdd c acc) []
    broadcastToRoomE deps roomId (.presence roomId uniqueSortedClientIds) st

/-- `sendCurrentDoc` under throwing dependencies: the accessor is called with
no surrounding try/catch, so its throw propagates with nothing sent. -/
def sendCurrentDocE (deps : ThrowingDeps) (connectionId roomId : List Char)
    (st : ESt) : EOut :=
  match deps.getCurrentRoomDoc roomId with
  | .error _ => .thrown st
  | .ok none => sendE deps connectionId (.errorMsg "ROOM_NOT_FOUND".toList) st
  | .ok (some d) =>
      sendE deps connectionId (.doc roomId d.currentVersionId d.atomicDoc d.pageDoc) st

/-- `handleLockAcquire` under throwing dependencies. -/
def handleLockAcquireE (deps : ThrowingDeps)
    (connectionId roomId clientId : List Char) (lockTarget : LockTarget)
    (st : ESt) : EOut :=
  match deps.getCurrentRoomDoc roomId with
  | .error _ => .thrown st
  | .ok none => sendE deps connectionId (.errorMsg "ROOM_NOT_FOUND".toList) st
  | .ok (some currentRoomDoc) =>
    if ¬ isLockTargetValidForRoom currentRoomDoc lockTarget then
      sendE deps connectionId (.lockDenied roomId clientId lockTarget "invalidTarget".toList) st
    else
      let lockTargetKey := getLockTargetKey lockTarget
      let roomLockMap := roomLockMapOf st.1 roomId
      match mapGet lockTargetKey roomLockMap with
      | some existingLock =>
          if existingLock.ownerConnectionId ≠ connectionId ∨
              existingLock.ownerClientId ≠ clientId then
            sendE deps connectionId
              (.lockDenied roomId clientId lockTarget "alreadyLocked".toList) st
          else
            let locks2 := mapSet roomId (mapSet lockTargetKey ⟨connectionId, clientId⟩ roomLockMap) st.1.roomLocks
            sendE deps connectionId (.lockGranted roomId clientId lockTarget)
              ({ st.1 with roomLocks := locks2 }, st.2)
      | none =>
          let locks2 := mapSet roomId (mapSet lockTargetKey ⟨connectionId, clientId⟩ roomLockMap) st.1.roomLocks
          sendE deps connectionId (.lockGranted roomId clientId lockTarget)
            ({ st.1 with roomLocks := locks2 }, st.2)

/-- `handleLockReleaseRequest` under throwing dependencies. -/
def handleLockReleaseRequestE (deps : ThrowingDeps)
    (connectionId roomId clientId : List Char) (lockTarget : LockTarget)
    (st : ESt) : EOut :=
  match mapGet roomId st.1.roomLocks with
  | none => .ok st
  | some roomLockMap =>
    let lockTargetKey := getLockTargetKey lockTarget
    match mapGet lockTargetKey roomLockMap with
    | none => .ok st
    | some existingLock =>
      if existingLock.ownerConnectionId ≠ connectionId ∨
          existingLock.ownerClientId ≠ clientId then
        .ok st
      else
        let roomLockMap2 := mapDel lockTargetKey roomLockMap
        let newRoomLocks :=
          if roomLockMap2.length < 1 then mapDel roomId st.1.roomLocks
          else mapSet roomId roomLockMap2 st.1.roomLocks
        broadcastToRoomE deps roomId (.lockReleased roomId clientId lockTarget)
          ({ st.1 with roomLocks := newRoomLocks }, st.2)

/-- `dispatch` under throwing dependencies: identical routing to `dispatch`,
with no try/catch anywhere. -/
def dispatchE (deps : ThrowingDeps) (connectionId : List Char) (message : ClientMsg)
    (st : ESt) : EOut :=
  match mapGet connectionId st.1.connectionsById with
  | none => .ok st
  | some connectionState =>
    match message with
    | .join roomId clientId =>
        let cs2 := { connectionState with clientId := some clientId }
        let st1 : ESt :=
          ({ st.1 with connectionsById := mapSet connectionId cs2 st.1.connectionsById },
           st.2)
        let st2 : ESt := (subscribeConnectionToRoom st1.1 connectionId roomId, st1.2)
        eSeq (sendCurrentDocE deps connectionId roomId st2)
          (broadcastPresenceE deps roomId)
    | .subscribe roomId =>
        sendCurrentDocE deps connectionId roomId
          (subscribeConnectionToRoom st.1 connectionId roomId, st.2)
    | .patchDraft roomId draftId baseVersionId ops =>
        broadcastPatchDraftE deps connectionId roomId
          (.patchDraftB roomId draftId baseVersionId
            (connectionState.clientId.getD connectionState.connectionId) ops) st
    | .lockAcquire roomId clientId lockTarget =>
        let cs2 :=
          if connectionState.clientId = none then
            { connectionState with clientId := some clientId }
          else connectionState
        let st1 : ESt :=
          ({ st.1 with connectionsById := mapSet connectionId cs2 st.1.connectionsById },
           st.2)
        handleLockAcquireE deps connectionId roomId clientId lockTarget st1
    | .lockReleased roomId clientId lockTarget =>
        handleLockReleaseRequestE deps connectionId roomId clientId lockTarget st
    | .other _ =>
        sendE deps connectionId (.errorMsg "UNSUPPORTED_MESSAGE_TYPE".toList) st

/-- Dependencies whose room-doc accessor always throws. -/
def throwingDocDeps : ThrowingDeps := ⟨fun _ => .error (), fun _ => false⟩

/-- Dependencies with a working accessor (the fixture doc) where only
conn-b's send callback throws. -/
def throwingSendDeps : ThrowingDeps :=
  ⟨fun roomId => .ok (fixtureGetDoc roomId), fun cid => cid == "conn-b".toList⟩

/-- Three members of room-1 (conn-a, conn-b, conn-c, in membership order)
with conn-a holding the atomic `component-hero` lock. -/
def threeMemberLockedState : DispatcherState :=
  (dispatch fixtureGetDoc
    ((dispatch fixtureGetDoc
      ((dispatch fixtureGetDoc
        ((dispatch fixtureGetDoc
          (registerConnection (registerConnection (registerConnection initialDispatcherState
            "conn-a".toList) "conn-b".toList) "conn-c".toList)
          "conn-a".toList (.join "room-1".toList "client-a".toList)).1)
        "conn-b".toList (.join "room-1".toList "client-b".toList)).1)
      "conn-c".toList (.join "room-1".toList "client-c".toList)).1)
    "conn-a".toList
    (.lockAcquire "room-1".toList "client-a".toList (.atomic "component-hero".toList))).1

/-- C7 counterexample: exceptions do cross the dispatch boundary.  A throwing
`getCurrentRoomDoc` propagates out of a `subscribe` dispatch (it is not
degraded to a ROOM_NOT_FOUND reply — nothing is sent at all), and a throwing
send callback on conn-b aborts the `lockReleased` fan-out, so conn-c (after
conn-b in membership order) never receives the message and the exception
escapes `dispatch`. -/
theorem C7_exception_counterexample :
    dispatchE throwingDocDeps "conn-a".toList (.subscribe "room-1".toList)
      (registerConnection initialDispatcherState "conn-a".toList, []) =
      .thrown (subscribeConnectionToRoom
        (registerConnection initialDispatcherState "conn-a".toList)
        "conn-a".toList "room-1".toList, []) ∧
    dispatchE throwingSendDeps "conn-a".toList
      (.lockReleased "room-1".toList "client-a".toList (.atomic "component-hero".toList))
      (threeMemberLockedState, []) =
      .thrown
        (DispatcherState.mk threeMemberLockedState.connectionsById
          threeMemberLockedState.roomConnections [],
         [("conn-a".toList, .lockReleased "room-1".toList "client-a".toList
           (.atomic "component-hero".toList))]) := by
  refine ⟨by decide, by decide⟩

/-- C7 (amended): the dispatcher performs no catching.  A throwing
`getCurrentRoomDoc` propagates out of `dispatch` (shown for `subscribe`: the
membership mutation already performed persists and no reply of any kind is
sent), and a throwing send callback inside room fan-out aborts the remaining
loop: members before the throwing one keep their deliveries, members after it
receive nothing, and the exception propagates. -/
theorem C7_exception_amended :
    (∀ (deps : ThrowingDeps) (s : DispatcherState) (sent0 : List Sent)
      (connectionId : List Char) (cs : ConnectionState) (roomId : List Char),
      mapGet connectionId s.connectionsById = some cs →
      deps.getCurrentRoomDoc roomId = .error () →
      dispatchE deps connectionId (.subscribe roomId) (s, sent0) =
        .thrown (subscribeConnectionToRoom s connectionId roomId, sent0)) ∧
    (∀ (deps : ThrowingDeps) (msg : ServerMsg) (xs : List (List Char)) (b : List Char)
      (ys : List (List Char)) (st : ESt),
      (∀ x ∈ xs, deps.sendThrows x = false) →
      (∀ x ∈ xs, (mapGet x st.1.connectionsById).isSome = true) →
      deps.sendThrows b = true →
      (mapGet b st.1.connectionsById).isSome = true →
      sendToAllE deps msg (xs ++ b :: ys) st =
        .thrown (st.1, st.2 ++ xs.map fun cid => (cid, msg))) := by
  constructor
  · intro deps s sent0 connectionId cs roomId hc hdoc
    unfold dispatchE
    rw [hc]
    dsimp only
    unfold sendCurrentDocE
    rw [hdoc]
  · intro deps msg xs
    induction xs with
    | nil =>
      intro b ys st hxf hxr hb hbr
      rcases Option.isSome_iff_exists.mp hbr with ⟨csb, hcsb⟩
      rw [List.nil_append]
      unfold sendToAllE
      rw [hcsb]
      dsimp only
      unfold sendE
      rw [if_pos hb]
      unfold eSeq
      simp
    | cons x xs ih =>
      intro b ys st hxf hxr hb hbr
      rcases Option.isSome_iff_exists.mp (hxr x (List.mem_cons_self x xs)) with ⟨csx, hcsx⟩
      rw [List.cons_append]
      unfold sendToAllE
      rw [hcsx]
      dsimp only
      unfold sendE
      rw [if_neg (by simp [hxf x (List.mem_cons_self x xs)])]
      unfold eSeq
      dsimp only
      rw [ih b ys (st.1, st.2 ++ [(x, msg)])
        (fun y hy => hxf y (List.mem_cons_of_mem x hy))
        (fun y hy => hxr y (List.mem_cons_of_mem x hy)) hb hbr]
      simp

/-- Witness for C7 (amended) at concrete inputs: the throwing accessor makes
a `subscribe` dispatch throw, and the fan-out over [conn-a, conn-b, conn-c]
with conn-b's send throwing delivers to conn-a only. -/
theorem C7_exception_witness :
    dispatchE throwingDocDeps "conn-a".toList (.subscribe "room-2".toList)
      (registerConnection initialDispatcherState "conn-a".toList, []) =
      .thrown (subscribeConnectionToRoom
        (registerConnection initialDispatcherState "conn-a".toList)
        "conn-a".toList "room-2".toList, []) ∧
    sendToAllE throwingSendDeps
      (.lockReleased "room-1".toList "client-a".toList (.atomic "component-hero".toList))
      (["conn-a".toList] ++ "conn-b".toList :: ["conn-c".toList])
      (threeMemberLockedState, []) =
      .thrown (threeMemberLockedState,
        [] ++ ["conn-a".toList].map fun cid =>
          (cid, .lockReleased "room-1".toList "client-a".toList
            (.atomic "component-hero".toList))) :=
  ⟨C7_exception_amended.1 throwingDocDeps
    (registerConnection initialDispatcherState "conn-a".toList) []
    "conn-a".toList ⟨"conn-a".toList, none, []⟩ "room-2".toList (by decide) rfl,
   C7_exception_amended.2 throwingSendDeps
    (.lockReleased "room-1".toList "client-a".toList (.atomic "component-hero".toList))
    ["conn-a".toList] "conn-b".toList ["conn-c".toList] (threeMemberLockedState, [])
    (by decide) (by decide) (by decide) (by decide)⟩
